import Mathlib

/-!
# Verification of the JarvisBackend agentic task-routing core

This file gives a shallow embedding, in Lean 4, of the decision-relevant parts
of the JarvisBackend Node.js program, and proves (or refutes) the claims of its
natural-language specification against that embedding.

Embedding conventions:
* JS strings are modelled as `List Char` (one entry per UTF-16 unit of the
  original; all literals involved are ASCII/BMP so the correspondence is
  exact); identifiers such as agent names and API keys, which are only ever
  compared for equality, are modelled as `String`.
* Effectful boundary calls (the language-model completion call, the browser,
  the system clock/locale) are modelled as oracle parameters gathered in
  explicit environment structures.  Everything that is pure JS logic in the
  repository is embedded as executable Lean definitions.
* JS falsiness is embedded explicitly where it is decision-relevant
  (`0`, `''`, `null`/`undefined` are falsy).
* JS floating-point comparisons of the form `intExpr < k * 0.8` (and
  `intExpr > k * 0.8`) are embedded as the exact rational comparisons
  `5 * intExpr < 4 * k` (resp. `>`).  For the integer operands occurring in
  this program the double-precision evaluation of `k * 0.8` decides strict
  comparisons with integers exactly as the rational `4 * k / 5` does, so the
  embedding is faithful.
-/

namespace Jarvis

/-! ## Shared string helpers (JS semantics) -/

/-- Whitespace test used to model the character class of the JS regexp
escape `\s` and of `String.prototype.trim` (all whitespace occurring in this
development is ASCII). -/
def wsChar (c : Char) : Bool :=
  c = ' ' || c = '\t' || c = '\n' || c = '\r' || c = '\x0b' || c = '\x0c'

/-- Model of `String.prototype.trim`: drop whitespace from both ends. -/
def trimEnds (l : List Char) : List Char :=
  ((l.dropWhile wsChar).reverse.dropWhile wsChar).reverse

/-- Model of `String.prototype.lastIndexOf` for a single character: the
largest index holding `c`, or `-1` when there is none. -/
def lastIdx (c : Char) : List Char → Int
  | [] => -1
  | a :: l =>
      let r := lastIdx c l
      if r ≥ 0 then r + 1 else if a = c then 0 else -1

/-- Model of `String.prototype.includes(pat)`: `pat` occurs as a contiguous
substring. -/
def containsSub (p : List Char) : List Char → Bool
  | [] => p.isEmpty
  | c :: l => p.isPrefixOf (c :: l) || containsSub p l

/-! ## Content Governor (`ContentManager`, part_000) -/

namespace CM

/-- Truncation marker appended by `truncateContent`
(the JS literal is a newline followed by the bracketed notice). -/
def truncMarker : List Char := ("\n... [Content truncated for token limits]").data

/-- Shallow embedding of `ContentManager.truncateContent(content, maxLength)`.
`cfgMax` models `this.maxContentLength` (6000 unless overridden by the
environment).  A `maxLength` of `0` is falsy in JS, so `maxLength || cfgMax`
falls back to `cfgMax` both for an absent and for a zero argument. -/
def truncateContent (cfgMax : Nat) (content : List Char) (maxLength : Option Nat) :
    List Char :=
  if content = [] then []
  else
    let targetLength : Nat :=
      match maxLength with
      | some l => if l = 0 then cfgMax else l
      | none => cfgMax
    if content.length ≤ targetLength then content
    else
      let truncated := content.take targetLength
      let lastPeriod := lastIdx '.' truncated
      let lastNewline := lastIdx '\n' truncated
      let lastSpace := lastIdx ' ' truncated
      let cutPoint : Int :=
        if 5 * lastPeriod > 4 * (targetLength : Int) then lastPeriod + 1
        else if 5 * lastNewline > 4 * (targetLength : Int) then lastNewline
        else if 5 * lastSpace > 4 * (targetLength : Int) then lastSpace
        else (targetLength : Int)
      let result := trimEnds (content.take cutPoint.toNat)
      result ++ (if cutPoint < (content.length : Int) then truncMarker else [])

/-- Modelled from the spec: the cut point described by the specification
sentence "cuts at the best of \x7blast sentence end, last newline, last
space\x7d that lies beyond 80% of targetLength; else hard-cuts at
targetLength".  Stated separately so the code path can be compared with the
spec's description. -/
def cutPointSpec (s : List Char) (targetLength : Nat) : Nat :=
  let pre := s.take targetLength
  let sentenceEnd := lastIdx '.' pre
  let nl := lastIdx '\n' pre
  let sp := lastIdx ' ' pre
  if 5 * sentenceEnd > 4 * (targetLength : Int) then (sentenceEnd + 1).toNat
  else if 5 * nl > 4 * (targetLength : Int) then nl.toNat
  else if 5 * sp > 4 * (targetLength : Int) then sp.toNat
  else targetLength

end CM

/-! ## Model Gateway (`src/services/langchain.js`) -/

namespace LC

/-- Error value surfaced by a failed Google AI invocation: the parts of the
JS error object that `callGoogleAI` inspects. -/
structure GErr where
  message : List Char
  status : Option Nat
deriving DecidableEq

/-- Embedding of the retry test in `callGoogleAI`'s catch block:
`error.message.includes('quota') || ...('rate') || ...('limit') ||
error.status === 429`. -/
def isRetryableErr (e : GErr) : Bool :=
  containsSub (("quota").data) e.message || containsSub (("rate").data) e.message ||
    containsSub (("limit").data) e.message || e.status == some 429

/-- State of `APIKeyManager`: the configured keys and the round-robin index. -/
structure KeyState where
  apiKeys : List String
  currentIndex : Nat
deriving DecidableEq

/-- Embedding of `APIKeyManager.getNextKey`: return the key at the current
index and advance the index by one modulo the number of keys. -/
def getNextKey (ks : KeyState) : String × KeyState :=
  (ks.apiKeys.getD ks.currentIndex "",
    { ks with currentIndex := (ks.currentIndex + 1) % ks.apiKeys.length })

/-- Aggregated failure message thrown when `callGoogleAI` gives up:
`Failed to process request with Google AI after N attempts: MSG` (with the JS
interpolation of `lastError?.message` printing `undefined` when no error was
recorded). -/
def aggMsg (maxRetries : Nat) (lastError : Option GErr) : List Char :=
  ("Failed to process request with Google AI after ").data ++
    (toString maxRetries).data ++ (" attempts: ").data ++
    (match lastError with
     | some e => e.message
     | none => ("undefined").data)

/-- Embedding of `callGoogleAI`'s retry loop.  The source iterates
`attempt = 0 .. maxRetries-1`; here the remaining iteration budget
`remaining = maxRetries - attempt` is the structural recursion argument.
The returned trace records, per attempt, the key used and the error (if the
attempt failed); `invoke` is the oracle for `model.invoke` (attempt index and
api key in, response text or error out). -/
def googleLoop (invoke : Nat → String → Except GErr String) (maxRetries : Nat) :
    Nat → Nat → KeyState → Option GErr →
    Except (List Char) String × KeyState × List (String × Option GErr)
  | 0, _, ks, lastError => (.error (aggMsg maxRetries lastError), ks, [])
  | remaining + 1, attempt, ks, _ =>
      let kk := getNextKey ks
      match invoke attempt kk.1 with
      | .ok content => (.ok content, kk.2, [(kk.1, none)])
      | .error e =>
          if isRetryableErr e then
            let rest := googleLoop invoke maxRetries remaining (attempt + 1) kk.2 (some e)
            (rest.1, rest.2.1, (kk.1, some e) :: rest.2.2)
          else
            (.error (aggMsg maxRetries (some e)), kk.2, [(kk.1, some e)])

/-- Embedding of `callGoogleAI`: at most `min(3, keyCount)` attempts, starting
from the current rotation state. -/
def callGoogleAI (invoke : Nat → String → Except GErr String) (ks : KeyState) :
    Except (List Char) String × KeyState × List (String × Option GErr) :=
  let maxRetries := min 3 ks.apiKeys.length
  googleLoop invoke maxRetries maxRetries 0 ks none

/-- Default trace entry used for indexed access in statements. -/
def dfltEntry : String × Option GErr := ("", none)

/-- Successive error-free completion calls (claim C6's scenario): perform
`m` calls through `callGoogleAI`, call number `c` answered by the oracle
with `.ok (resp c)` on every attempt, threading the rotation state and
collecting the keys used. -/
def runCallsFrom (resp : Nat → String) : Nat → Nat → KeyState → KeyState × List String
  | _, 0, ks => (ks, [])
  | c, m + 1, ks =>
      let one := callGoogleAI (fun _ _ => .ok (resp c)) ks
      let rest := runCallsFrom resp (c + 1) m one.2.1
      (rest.1, one.2.2.map Prod.fst ++ rest.2)

/-- Concrete oracle for witnesses: first attempt fails with a quota error,
any later attempt succeeds. -/
def invokeQuotaThenOk : Nat → String → Except GErr String :=
  fun attempt _ =>
    if attempt = 0 then .error ⟨("quota exceeded").data, some 429⟩ else .ok "done"

/-- Concrete three-key rotation state for witnesses. -/
def ks3 : KeyState := ⟨["k1", "k2", "k3"], 0⟩

end LC

/-! ## Result Formatter (`ResponseFormatterAgent`, part_002) -/

namespace Fmt

/-- JS `a || b` for an optional string: a missing or empty string is falsy. -/
def jsOr (a : Option (List Char)) (b : List Char) : List Char :=
  match a with
  | some s => if s = [] then b else s
  | none => b

/-- Truthiness of an optional string (empty string is falsy). -/
def truthyS (a : Option (List Char)) : Bool :=
  match a with
  | some s => !s.isEmpty
  | none => false

/-- Truthiness of an optional number (0 is falsy). -/
def truthyN (a : Option Nat) : Bool :=
  match a with
  | some n => n ≠ 0
  | none => false

/-- Product record as consumed by the formatter (the fields the formatter
reads; review counts are the numbers the extractor produces). -/
structure Product where
  name : Option (List Char)
  price : Option (List Char)
  priceNumeric : Option (List Char)
  rating : Option (List Char)
  reviewCount : Option Nat
  link : Option (List Char)
  brand : Option (List Char)
deriving DecidableEq

/-- Extracted-data payload: `products` is `none` when the JS object has no
`products` field (an empty array present is `some []`). -/
structure ExtractedData where
  products : Option (List Product)
  pageUrl : Option (List Char)
deriving DecidableEq

/-- The `result` field of an agent result as the formatter reads it. -/
structure ResultField where
  extractedData : Option ExtractedData
  summary : Option (List Char)
deriving DecidableEq

/-- Agent result object handed to the formatter. -/
structure FmtAgentResult where
  result : Option ResultField
  extractedData : Option ExtractedData
  url : Option (List Char)
deriving DecidableEq

/-- Parameters of `ResponseFormatterAgent`. -/
structure FmtParams where
  userPrompt : List Char
  agentResult : Option FmtAgentResult
  lastAgent : Option String

/-- Oracle environment of the formatter: the outcome of the single
`callLangChain` completion call, the rendered current date
(`new Date().toLocaleDateString()`), and the locale rendering of numbers
(`Number.prototype.toLocaleString`). -/
structure FmtEnv where
  llmOutcome : Except (List Char) (List Char)
  today : List Char
  localeNum : Nat → List Char

/-- Embedding of the `dataToFormat`/`dataSource` normalization at the top of
`ResponseFormatterAgent` (the four-way shape dispatch).  A bare `result`
value and the raw agent object carry no `products` array, so those branches
yield a payload without products. -/
def extractPayload (ar : FmtAgentResult) : ExtractedData × List Char :=
  match ar.result with
  | some rf =>
      match rf.extractedData with
      | some ed => (ed, jsOr ar.url (jsOr ed.pageUrl (("Web").data)))
      | none =>
          match ar.extractedData with
          | some ed => (ed, jsOr ar.url (jsOr ed.pageUrl (("Web").data)))
          | none => (⟨none, none⟩, jsOr ar.url (("Web").data))
  | none =>
      match ar.extractedData with
      | some ed => (ed, jsOr ar.url (jsOr ed.pageUrl (("Web").data)))
      | none => (⟨none, none⟩, ("Agent").data)

/-- Recognizer for the bullet-item pattern the quality check counts: the
JS regexp `•\s*\*\*` matched at the head of the list (a bullet, optional
whitespace, two asterisks). -/
def afterBulletMarker : List Char → Option (List Char)
  | '•' :: cs =>
      match cs.dropWhile wsChar with
      | '*' :: '*' :: rest => some rest
      | _ => none
  | _ => none

/-- Embedding of `(text.match(/•\s*\*\*/g) || []).length`: the number of
match positions.  A match of this pattern consumes no further bullet
character, so counting start positions coincides with the JS global-match
count. -/
def countBullet : List Char → Nat
  | [] => 0
  | c :: cs =>
      (if (afterBulletMarker (c :: cs)).isSome then 1 else 0) + countBullet cs

/-- Embedding of the helper patterns of `extractKeyFeatures`: match, after a
maximal digit run, a sequence of literals each preceded by optional
whitespace (JS `(\d+)\s*lit1\s*lit2`). -/
def matchLits : List Char → List (List Char) → Bool
  | _, [] => true
  | l, lit :: lits =>
      let l' := l.dropWhile wsChar
      lit.isPrefixOf l' && matchLits (l'.drop lit.length) lits

/-- First match of `(\d+)\s*lits` scanning left to right; returns the
captured digit run. -/
def scanNumThenLits (lits : List (List Char)) : List Char → Option (List Char)
  | [] => none
  | c :: l =>
      if c.isDigit then
        if matchLits ((c :: l).dropWhile Char.isDigit) lits then
          some ((c :: l).takeWhile Char.isDigit)
        else scanNumThenLits lits l
      else scanNumThenLits lits l

/-- Embedding of `extractKeyFeatures(productName)`: regex-driven feature
tags inferred from the lowercased product name, capped at 3. -/
def extractKeyFeatures (productName : List Char) : List (List Char) :=
  let nm := productName.map Char.toLower
  let features :=
    (match scanNumThenLits [("gb").data, ("ram").data] nm with
     | some d => [d ++ ("GB RAM").data]
     | none => []) ++
    (match scanNumThenLits [("gb").data, ("storage").data] nm with
     | some d => [d ++ ("GB Storage").data]
     | none => []) ++
    (if containsSub (("amoled").data) nm then [("AMOLED display").data] else []) ++
    (if containsSub (("120hz").data) nm then [("120Hz refresh rate").data] else []) ++
    (match scanNumThenLits [("mp").data] nm with
     | some d => [d ++ ("MP camera").data]
     | none => []) ++
    (match scanNumThenLits [("mah").data] nm with
     | some d => [d ++ ("mAh battery").data]
     | none => []) ++
    (if containsSub (("5g").data) nm then [("5G support").data] else [])
  features.take 3

/-- Body of one product entry of `createDirectFormattedResponse` (index
`i`): everything after the leading bullet marker. -/
def directBlockBody (env : FmtEnv) (i : Nat) (p : Product) : List Char :=
  jsOr p.name (("Product ").data ++ (toString (i + 1)).data) ++
    ("** - ").data ++ jsOr p.price (("Price not available").data) ++ ("\n").data ++
  (if truthyS p.rating then
      ("  Rating: ").data ++ (p.rating.getD []) ++ ("★").data ++
        (if truthyN p.reviewCount then
            (" (").data ++ env.localeNum (p.reviewCount.getD 0) ++ (" reviews)").data
         else []) ++ ("\n").data
   else []) ++
  (if truthyS p.name && decide (50 < (p.name.getD []).length) then
      let features := extractKeyFeatures (p.name.getD [])
      if features ≠ [] then
        ("  Key features: ").data ++ List.intercalate ((", ").data) features ++ ("\n").data
      else []
   else []) ++
  (if truthyS p.link then
      ("  [View on Amazon](").data ++ (p.link.getD []) ++ (")\n").data
   else []) ++
  ("\n").data

/-- One product entry of `createDirectFormattedResponse`: the bullet marker
followed by the entry body. -/
def directBlock (env : FmtEnv) (i : Nat) (p : Product) : List Char :=
  ("• **").data ++ directBlockBody env i p

/-- The per-product part of `createDirectFormattedResponse`
(`products.forEach` with running index). -/
def directBlocks (env : FmtEnv) : Nat → List Product → List Char
  | _, [] => []
  | i, p :: ps => directBlock env i p ++ directBlocks env (i + 1) ps

/-- Embedding of `createDirectFormattedResponse(userPrompt, dataToFormat,
dataSource)`: the fully deterministic formatter used when the model output
appears truncated. -/
def createDirectFormattedResponse (env : FmtEnv) (userPrompt : List Char)
    (d : ExtractedData) (dataSource : List Char) : List Char :=
  match d.products with
  | none =>
      ("## Results for: ").data ++ userPrompt ++
        ("\n\nI found some information but couldn't format it properly. Please try a more specific query.").data
  | some ps =>
      if ps.length = 0 then
        ("## Results for: ").data ++ userPrompt ++
          ("\n\nI found some information but couldn't format it properly. Please try a more specific query.").data
      else
        let pageUrl := jsOr d.pageUrl dataSource
        ("## Best Phones Under ₹20,000 on Amazon\n\n").data ++
          ("I found ").data ++ (toString ps.length).data ++
          (" great options that fit your budget. Here are all the phones with their details:\n\n").data ++
          directBlocks env 0 ps ++
          ("---\n*Source: ").data ++ pageUrl ++ (" | Found ").data ++
          (toString ps.length).data ++ (" products | Updated: ").data ++ env.today ++ ("*").data

/-- One product entry of `createFallbackResponse` (no locale formatting, a
different link label, at most 10 entries overall). -/
def fallbackBlock (i : Nat) (p : Product) : List Char :=
  ("• **").data ++ jsOr p.name (("Product ").data ++ (toString (i + 1)).data) ++ ("**").data ++
  (if truthyS p.price then (" - ").data ++ (p.price.getD []) else []) ++
  (if truthyS p.rating then (" | Rating: ").data ++ (p.rating.getD []) ++ ("★").data else []) ++
  (if truthyN p.reviewCount then
      (" (").data ++ (toString (p.reviewCount.getD 0)).data ++ (" reviews)").data
   else []) ++
  (if truthyS p.link then ("\n  [View Product](").data ++ (p.link.getD []) ++ (")").data else []) ++
  ("\n\n").data

/-- The sliced per-product part of `createFallbackResponse`. -/
def fallbackBlocks : Nat → List Product → List Char
  | _, [] => []
  | i, p :: ps => fallbackBlock i p ++ fallbackBlocks (i + 1) ps

/-- Embedding of `createFallbackResponse(params)`: the simple formatter used
in the catch path when the model call (or anything else in the try block)
threw.  Note the `.slice(0, 10)` cap on listed products. -/
def createFallbackResponse (params : FmtParams) : List Char :=
  let base := ("## Results for: ").data ++ params.userPrompt ++ ("\n\n").data
  match params.agentResult with
  | some ar =>
      match ar.result with
      | some rf =>
          match rf.extractedData with
          | some ed =>
              match ed.products with
              | some ps =>
                  base ++ ("I found ").data ++ (toString ps.length).data ++ (" items:\n\n").data ++
                    fallbackBlocks 0 (ps.take 10) ++
                    (if truthyS ed.pageUrl then
                        ("---\n*Source: ").data ++ (ed.pageUrl.getD []) ++ ("*").data
                     else [])
              | none =>
                  match rf.summary with
                  | some s =>
                      if s = [] then
                        base ++ ("I processed your request successfully, but the detailed results are in a format that's difficult to display. Please try a more specific query.").data
                      else base ++ s
                  | none =>
                      base ++ ("I processed your request successfully, but the detailed results are in a format that's difficult to display. Please try a more specific query.").data
          | none =>
              match rf.summary with
              | some s =>
                  if s = [] then
                    base ++ ("I processed your request successfully, but the detailed results are in a format that's difficult to display. Please try a more specific query.").data
                  else base ++ s
              | none =>
                  base ++ ("I processed your request successfully, but the detailed results are in a format that's difficult to display. Please try a more specific query.").data
      | none =>
          base ++ ("I processed your request successfully, but the detailed results are in a format that's difficult to display. Please try a more specific query.").data
  | none =>
      base ++ ("I processed your request successfully, but the detailed results are in a format that's difficult to display. Please try a more specific query.").data

/-- Result record of the formatter (the decision-relevant fields). -/
structure FmtResult where
  isCompleted : Bool
  response : List Char
  fallback : Bool
  error : Bool
deriving DecidableEq

/-- Shallow embedding of `ResponseFormatterAgent` (the later revision in
part_002, with the post-hoc bullet-count completeness check).  The prompt
construction and the large-dataset projection feed only the model call and
are absorbed into the `llmOutcome` oracle. -/
def ResponseFormatterAgent (env : FmtEnv) (params : FmtParams) : FmtResult :=
  if params.userPrompt = [] ∨ params.agentResult = none then
    { isCompleted := true, response := createFallbackResponse params,
      fallback := true, error := true }
  else
    match params.agentResult with
    | none =>
        { isCompleted := true, response := createFallbackResponse params,
          fallback := true, error := true }
    | some ar =>
        let pd := extractPayload ar
        match env.llmOutcome with
        | .error _ =>
            { isCompleted := true, response := createFallbackResponse params,
              fallback := true, error := true }
        | .ok text =>
            let trimmed := trimEnds text
            let finalResponse :=
              match pd.1.products with
              | some ps =>
                  if 0 < ps.length then
                    if 5 * countBullet trimmed < 4 * ps.length then
                      createDirectFormattedResponse env params.userPrompt pd.1 pd.2
                    else trimmed
                  else trimmed
              | none => trimmed
            { isCompleted := true, response := finalResponse,
              fallback := false, error := false }

/-- Concrete environment for the counterexample: the completion call throws. -/
def cexEnv : FmtEnv :=
  ⟨.error (("model unavailable").data), ("1/1/2026").data, fun n => (toString n).data⟩

/-- Thirteen products, enough that the 10-item cap of the catch-path
fallback breaks the 80% completeness bound. -/
def cexProducts : List Product :=
  List.replicate 13 ⟨some (("Phone").data), some (("₹9,999").data), none, none, none, none, none⟩

/-- Concrete formatter parameters for the counterexample. -/
def cexParams : FmtParams :=
  ⟨("find phones").data,
   some ⟨some ⟨some ⟨some cexProducts, some (("https://example.com").data)⟩, none⟩,
         none, none⟩,
   some "WebAgent"⟩

/-- Concrete environment for the witness: the completion call returns a
reply containing a single bullet entry. -/
def witEnv : FmtEnv :=
  ⟨.ok (("Here you go:\n\n• **Phone A** - ₹9,999\n").data), ("1/1/2026").data,
    fun n => (toString n).data⟩

/-- Two products, so one bullet in the model reply is below the 80% bound. -/
def witProducts : List Product :=
  [⟨some (("Phone A").data), some (("₹9,999").data), none, none, none, none, none⟩,
   ⟨some (("Phone B").data), some (("₹19,999").data), none, none, none, none, none⟩]

/-- Concrete formatter parameters for the witness. -/
def witParams : FmtParams :=
  ⟨("find phones").data,
   some ⟨some ⟨some ⟨some witProducts, some (("https://example.com").data)⟩, none⟩,
         none, none⟩,
   some "WebAgent"⟩

end Fmt

/-! ## Task Dispatcher and Decision Router (`AgentManager` in part_002,
`BaseAgent.js`) -/

namespace AM

/-- Registry entry of `AVAILABLE_AGENTS` (the decision-relevant fields:
name, required parameters, and whether the agent is merely planned). -/
structure AgentCfg where
  name : String
  requiredParams : List String
  planned : Bool
deriving DecidableEq

/-- The static `AVAILABLE_AGENTS` registry. -/
def AVAILABLE_AGENTS : List AgentCfg :=
  [⟨"WebAgent", ["url", "task"], false⟩,
   ⟨"SearchAgent", ["query"], true⟩,
   ⟨"AnalysisAgent", ["data", "analysisType"], true⟩,
   ⟨"CodeAgent", ["codeTask", "language"], true⟩]

/-- Names registered in `this.agents` by the `AgentManager` constructor. -/
def implementedAgents : List String := ["BaseAgent", "WebAgent"]

/-- Executor invocation outcome as the dispatcher inspects it:
`isCompleted`, `error`, whether `result.result.status` equals
`'partially_completed'`, `finallyFormulated`, and whether a truthy `result`
field is present (read only by the response-enhancement heuristics). -/
structure ExecResult where
  isCompleted : Bool
  error : Bool
  partiallyCompleted : Bool
  finallyFormulated : Bool
  hasResult : Bool
deriving DecidableEq

/-- Prompt values flowing into the Decision Router.  Recursive continuation
and final-formulation prompts are built by string templates in the source;
they are modelled symbolically by constructors recording the template used
and its inputs (`variant` 0: executeTask's final formulation, 1:
routeToAgent's failure formulation, 2: routeToAgent's success
formulation). -/
inductive PromptV where
  | user (s : String)
  | continuation (agent : String) (orig : PromptV)
  | finalize (agent : String) (orig : PromptV) (variant : Nat)
deriving DecidableEq

/-- JS truthiness of a prompt (only a user-level empty string is falsy; the
generated template prompts are never empty). -/
def promptTruthy : PromptV → Bool
  | .user s => !s.isEmpty
  | _ => true

/-- The `progress` bag threaded through dispatcher and router calls. -/
structure Progress where
  failedAgents : List String
  step : Nat
  finalFormulation : Bool
  lastAgent : Option String
  lastAgentResult : Option ExecResult
deriving DecidableEq

/-- Response text values.  The prose helpers of `BaseAgent.js`
(`generateDetailedResponse` and the enhancement heuristics) produce strings
no claim inspects, so they are modelled symbolically by constructors
recording every input that influences the produced text. -/
inductive RespText where
  | modelText (s : String)
  | enhanced (s : String) (p : PromptV) (pr : Progress)
  | detailed (p : PromptV) (pr : Progress)
  | errorText (s : String)
deriving DecidableEq

/-- Symbolic model of `generateDetailedResponse(userPrompt, progress)`:
a deterministic function of exactly its two arguments. -/
def generateDetailedResponse (p : PromptV) (pr : Progress) : RespText :=
  RespText.detailed p pr

/-- JS truthiness of an optional response text.  `generateDetailedResponse`
always produces non-empty prose (its generic fallback starts with a fixed
sentence) and the enhancement path replaces an empty model text by that
prose, so only a bare empty model text is falsy. -/
def truthyResp : Option RespText → Bool
  | none => false
  | some (.modelText s) => !s.isEmpty
  | some _ => true

/-- Parsed model output at the Decision Router: a direct answer, a routing
decision (with the set of truthy parameters supplied), or unparseable text
(which the source downgrades to a direct answer). -/
inductive Decision where
  | direct (response : String)
  | route (nextAgent : String) (params : List String)
  | malformed (raw : String)
deriving DecidableEq

/-- Unified result record: the union of the fields of the JS result objects
produced by `BaseAgent`, the executors and the dispatcher (absent fields are
`false`/`none`/`[]`).  `execCore` carries the underlying executor result
when the record is, or wraps, one (`originalAgentResult` in the source). -/
structure JsResult where
  isCompleted : Bool
  error : Bool
  response : Option RespText
  resultF : Option RespText
  message : Option String
  nextAgent : Option String
  routeParams : List String
  finallyFormulated : Bool
  forcedCompletion : Bool
  fallbackResponse : Bool
  finalFormulationFlag : Bool
  partiallyCompleted : Bool
  execCore : Option ExecResult
deriving DecidableEq

/-- The empty result record (every field absent). -/
def JsResult.base : JsResult :=
  { isCompleted := false, error := false, response := none, resultF := none,
    message := none, nextAgent := none, routeParams := [],
    finallyFormulated := false, forcedCompletion := false,
    fallbackResponse := false, finalFormulationFlag := false,
    partiallyCompleted := false, execCore := none }

/-- Lift an executor result to the unified record (the raw object returned
through `callAgent`). -/
def liftExec (r : ExecResult) : JsResult :=
  { JsResult.base with
      isCompleted := r.isCompleted, error := r.error,
      partiallyCompleted := r.partiallyCompleted,
      finallyFormulated := r.finallyFormulated, execCore := some r }

/-- Oracle environment of the dispatcher: the parsed model decision at each
router call, the executor outcomes, and the parameter-enhancement outcomes
(`enhanceParameters`' model call, returning the additionally supplied truthy
parameter names). -/
structure AmEnv where
  route : PromptV → Option String → Progress → Decision
  exec : String → List String → Progress → ExecResult
  enhance : String → List String → PromptV → List String → List String

/-- JS truthiness of an optional string. -/
def truthyStr : Option String → Bool
  | none => false
  | some s => !s.isEmpty

/-- Shallow embedding of `BaseAgent(params)` (the Decision Router), given
the parsed model output `d`: input validation, final-formulation override,
failed-agent rejection, registry validation, and the routing/direct result
records, as in `BaseAgent.js`. -/
def BaseAgentF (env : AmEnv) (userPrompt : PromptV) (lastAgentUsed : Option String)
    (pr : Progress) : JsResult :=
  if !promptTruthy userPrompt then
    { JsResult.base with
        isCompleted := true,
        response := some (.errorText "Valid user prompt is required"), error := true }
  else
    match env.route userPrompt lastAgentUsed pr with
    | .direct s =>
        { JsResult.base with
            isCompleted := true,
            response := some (if pr.finalFormulation then .enhanced s userPrompt pr
            else if pr.lastAgentResult.any (fun r => !r.isCompleted || r.hasResult) then
              .enhanced s userPrompt pr
            else .modelText s),
            finalFormulationFlag := pr.finalFormulation }
    | .malformed raw =>
        { JsResult.base with
            isCompleted := true,
            response := some (if pr.finalFormulation then .enhanced raw userPrompt pr
            else if pr.lastAgentResult.any (fun r => !r.isCompleted || r.hasResult) then
              .enhanced raw userPrompt pr
            else .modelText raw),
            finalFormulationFlag := pr.finalFormulation }
    | .route nextA prms =>
        if pr.finalFormulation then
          { JsResult.base with
              isCompleted := true,
              response := some (generateDetailedResponse userPrompt pr),
              finalFormulationFlag := true, forcedCompletion := true }
        else if nextA ∈ pr.failedAgents then
          { JsResult.base with
              isCompleted := true,
              response := some (generateDetailedResponse userPrompt pr),
              fallbackResponse := true }
        else
          match AVAILABLE_AGENTS.find? (fun c => c.name = nextA) with
          | none =>
              { JsResult.base with
                  isCompleted := true,
                  response := some (.errorText "Invalid agent specified"), error := true }
          | some cfg =>
              if cfg.planned then
                { JsResult.base with
                    isCompleted := true,
                    response := some (.errorText "Agent is not yet implemented"), error := true }
              else
                { JsResult.base with
                    isCompleted := false, nextAgent := some nextA,
                    routeParams := prms }

/-- Embedding of `handleAgentContinuation`: route straight back through the
Decision Router. -/
def handleAgentContinuation (env : AmEnv) (userPrompt : PromptV)
    (lastAgentUsed : Option String) (pr : Progress) : JsResult :=
  BaseAgentF env userPrompt lastAgentUsed pr

/-- Execution-trace events: executor invocations (with the failed set at
invocation time), recursive `executeTask` continuations (with the depth
passed and the failed set passed down), and the depth-guard error. -/
inductive AmEvent where
  | invoke (agent : String) (failedBefore : List String)
  | recurse (agent : String) (depth : Int) (failedAfter : List String)
  | depthError (depth : Int)
deriving DecidableEq

mutual

/-- Shallow embedding of `AgentManager.executeTask(userPrompt,
lastAgentUsed, progress, maxRoutingDepth)`.  The depth-guard throw is caught
by the surrounding try/catch and surfaces as the structured
`AgentManager error: ...` result.  Returns the result record together with
the trace of events. -/
def executeTask (env : AmEnv) (userPrompt : PromptV) (lastAgentUsed : Option String)
    (pr : Progress) (maxRoutingDepth : Int) : JsResult × List AmEvent :=
  if h0 : maxRoutingDepth ≤ 0 then
    ({ JsResult.base with
        isCompleted := true, error := true,
        message := some "AgentManager error: Maximum routing depth exceeded. Task routing stopped to prevent infinite loops." },
      [.depthError maxRoutingDepth])
  else
    let currentResult :=
      if lastAgentUsed = none ∨ lastAgentUsed = some "BaseAgent" then
        BaseAgentF env userPrompt lastAgentUsed pr
      else
        handleAgentContinuation env userPrompt lastAgentUsed pr
    if !currentResult.isCompleted && truthyStr currentResult.nextAgent then
      let nextA := currentResult.nextAgent.getD ""
      let rr := routeToAgent env nextA currentResult.routeParams userPrompt pr
        (maxRoutingDepth - 1)
      let routingResult := rr.1
      if !routingResult.error && !routingResult.finallyFormulated then
        let finalProgress : Progress :=
          { pr with
              lastAgent := some nextA, lastAgentResult := routingResult.execCore,
              step := pr.step + 1, finalFormulation := true }
        let fPrompt : PromptV := .finalize nextA userPrompt 0
        let finalResponse := BaseAgentF env fPrompt (some nextA) finalProgress
        if finalResponse.isCompleted && truthyResp finalResponse.response then
          ({ routingResult with
              resultF := finalResponse.response, isCompleted := true,
              finallyFormulated := true }, rr.2)
        else (routingResult, rr.2)
      else (routingResult, rr.2)
    else (currentResult, [])
termination_by maxRoutingDepth.toNat * 2 + 1
decreasing_by all_goals simp_wf
              all_goals omega

/-- Shallow embedding of `AgentManager.routeToAgent(agentName, params,
originalPrompt, progress, remainingDepth)`: registry and parameter
validation, executor invocation, failure escalation to final formulation,
continuation recursion (with the failed agent recorded), and success-path
final formulation. -/
def routeToAgent (env : AmEnv) (agentName : String) (params : List String)
    (originalPrompt : PromptV) (pr : Progress) (remainingDepth : Int) :
    JsResult × List AmEvent :=
  match AVAILABLE_AGENTS.find? (fun c => c.name = agentName) with
  | none =>
      ({ JsResult.base with
          isCompleted := true, error := true,
          message := some "Failed to route: unknown agent" }, [])
  | some cfg =>
      if agentName ∉ implementedAgents then
        ({ JsResult.base with
            isCompleted := true, error := true,
            message := some "Agent is not yet implemented" }, [])
      else
        let missing := cfg.requiredParams.filter (fun q => q ∉ params)
        let params2 :=
          if missing ≠ [] then
            params ++ env.enhance agentName params originalPrompt missing
          else params
        let stillMissing := cfg.requiredParams.filter (fun q => q ∉ params2)
        if missing ≠ [] ∧ stillMissing ≠ [] then
          ({ JsResult.base with
              isCompleted := true, error := true,
              message := some "Failed to route: missing required parameters" }, [])
        else
          let result := env.exec agentName params2 pr
          let updatedProgress : Progress :=
            { pr with
                lastAgent := some agentName, lastAgentResult := some result,
                step := pr.step + 1 }
          if result.isCompleted = false ∧ 0 < remainingDepth then
            if result.error || result.partiallyCompleted then
              let finalProgress : Progress :=
                { updatedProgress with
                  failedAgents := pr.failedAgents ++ [agentName],
                  finalFormulation := true }
              let fPrompt : PromptV := .finalize agentName originalPrompt 1
              let finalResponse := BaseAgentF env fPrompt (some agentName) finalProgress
              ({ finalResponse with execCore := some result, finallyFormulated := true },
                [.invoke agentName pr.failedAgents])
            else
              let p2 : Progress :=
                { updatedProgress with failedAgents := pr.failedAgents ++ [agentName] }
              let inner := executeTask env (.continuation agentName originalPrompt)
                (some agentName) p2 remainingDepth
              (inner.1,
                .invoke agentName pr.failedAgents
                  :: .recurse agentName remainingDepth p2.failedAgents :: inner.2)
          else
            if result.isCompleted && !result.finallyFormulated then
              let finalProgress : Progress := { updatedProgress with finalFormulation := true }
              let fPrompt : PromptV := .finalize agentName originalPrompt 2
              let finalResponse := BaseAgentF env fPrompt (some agentName) finalProgress
              if finalResponse.isCompleted && truthyResp finalResponse.response then
                ({ liftExec result with
                    resultF := finalResponse.response,
                    isCompleted := true, finallyFormulated := true },
                  [.invoke agentName pr.failedAgents])
              else (liftExec result, [.invoke agentName pr.failedAgents])
            else (liftExec result, [.invoke agentName pr.failedAgents])
termination_by remainingDepth.toNat * 2 + 2
decreasing_by all_goals simp_wf

end

/-- `executeTask` as invoked by the HTTP jobs controller (`createJob` and
`testBaseAgent` pass no depth argument, so the JS parameter default
`maxRoutingDepth = 5` applies). -/
def executeTaskDefault (env : AmEnv) (userPrompt : PromptV)
    (lastAgentUsed : Option String) (pr : Progress) : JsResult × List AmEvent :=
  executeTask env userPrompt lastAgentUsed pr 5

/-- Executor invocations recorded in a trace. -/
def invokeRecs (tr : List AmEvent) : List (String × List String) :=
  tr.filterMap fun e =>
    match e with
    | .invoke a fb => some (a, fb)
    | _ => none

/-- Depths passed by recursive continuations recorded in a trace. -/
def recurseDepths (tr : List AmEvent) : List Int :=
  tr.filterMap fun e =>
    match e with
    | .recurse _ d _ => some d
    | _ => none

/-- Failed-agent sets passed down by recursive continuations. -/
def recurseFails (tr : List AmEvent) : List (String × List String) :=
  tr.filterMap fun e =>
    match e with
    | .recurse a _ fl => some (a, fl)
    | _ => none

/-- Depth values at which the depth-guard error fired. -/
def depthErrs (tr : List AmEvent) : List Int :=
  tr.filterMap fun e =>
    match e with
    | .depthError d => some d
    | _ => none

/-- Empty top-level progress. -/
def emptyProgress : Progress := ⟨[], 0, false, none, none⟩

/-- A never-failing-but-never-completing executor outcome. -/
def neverDone : ExecResult := ⟨false, false, false, false, false⟩

/-- Claim C1's scenario environment: the Router model always emits a
`Route` to `WebAgent` with full parameters, and the executor neither fails
nor completes. -/
def alwaysRouteEnv : AmEnv :=
  ⟨fun _ _ _ => .route "WebAgent" ["url", "task"],
   fun _ _ _ => neverDone,
   fun _ _ _ _ => []⟩

/-- A final-formulation progress value for witnesses. -/
def ffProgress : Progress := ⟨[], 1, true, some "WebAgent", some neverDone⟩

/-- A progress value with `WebAgent` already failed, for witnesses. -/
def failedProgress : Progress := ⟨["WebAgent"], 1, false, some "WebAgent", some neverDone⟩

end AM

/-! ## Browser Automation Agent (`src/agents/WebAgent.js`, later revision) -/

namespace WA

/-- The hard-coded iteration cap (`const maxIterations = 8`; the
`maxIterations` request parameter is ignored by this revision). -/
def maxIterations : Nat := 8

/-- JS truthiness of an optional string parameter. -/
def truthyOS : Option String → Bool
  | none => false
  | some s => !s.isEmpty

/-- An action chosen by the model (`action.type` drives control flow). -/
structure ActionV where
  type : String
  target : String
  value : String
  reasoning : String
deriving DecidableEq

/-- Extraction payload: item and product lists (absent fields are `none`)
plus the page URL recorded by the extractor. -/
structure ExtractData where
  items : Option (List String)
  products : Option (List String)
  pageUrl : String
deriving DecidableEq

/-- Result of `executeAction` (which never throws: it catches internally
and reports `success: false`). -/
structure ActionRes where
  success : Bool
  data : Option ExtractData
deriving DecidableEq

/-- Opaque page snapshot produced by `getComprehensiveDOM` (which never
throws: it catches internally and returns an error snapshot). -/
structure DomState where
  raw : List Char
deriving DecidableEq

/-- Parsed decision of `getNextAction` (which never throws: parse failures
fall back to `generateIntelligentFallback`). -/
structure WDecision where
  action : Option ActionV
  isCompleted : Bool
  confidence : ℚ
  finalAnswer : Option String
deriving DecidableEq

/-- Oracle environment of a WebAgent run: the browser boundary (launch,
navigation, robot-check evaluation, per-call page snapshots, action
execution, URL reads) and the model boundary (per-iteration decisions, the
final extraction pass, the partial-summary completion call). -/
structure WebEnv where
  launch : Except String Unit
  goto : Except String Unit
  robotCheck : Except String Bool
  perceive : Nat → DomState
  decide : Nat → DomState → WDecision
  act : Nat → Option ActionV → ActionRes
  pageUrl : Nat → String
  finalExtract : Except String ExtractData
  summarize : Except String String

/-- One recorded `BrowserStep`. -/
structure WStep where
  iteration : Nat
  action : Option ActionV
  result : ActionRes
  pageUrl : String
deriving DecidableEq

/-- Truthiness of the in-loop extraction check:
`(data.items && data.items.length > 0) || (data.products && ...)`. -/
def dataHasItems : Option ExtractData → Bool
  | none => false
  | some d =>
      (match d.items with
       | some its => decide (0 < its.length)
       | none => false) ||
      (match d.products with
       | some ps => decide (0 < ps.length)
       | none => false)

/-- Item count used in the in-loop completion message:
`data.items?.length || data.products?.length || 0` (a present-but-empty
items list is falsy 0 and falls through to products). -/
def itemCount : Option ExtractData → Nat
  | none => 0
  | some d =>
      match d.items with
      | some its =>
          if its.length ≠ 0 then its.length
          else
            match d.products with
            | some ps => ps.length
            | none => 0
      | none =>
          match d.products with
          | some ps => ps.length
          | none => 0

/-- State of the main iteration loop: the iteration counter, a clock
indexing the browser-oracle calls, the tracked URL, and the recorded
steps. -/
structure LoopState where
  currentIteration : Nat
  ctr : Nat
  currentUrl : String
  allSteps : List WStep
deriving DecidableEq

/-- How the main loop ended: model-confirmed completion, in-loop extraction
success, or exhaustion (loop guard, fuel, or the break on a late action
failure). -/
inductive LoopExit where
  | completedAnswer (ans : Option String)
  | completedExtract (d : ExtractData) (count : Nat)
  | ranOut
deriving DecidableEq

/-- Outcome of the action-execution tail of one cycle: loop again or break
out of the loop. -/
inductive NormalStep where
  | continueLoop (st : LoopState)
  | exitLoop (st : LoopState)
deriving DecidableEq

/-- The action-execution tail of one loop cycle (the `executeAction` call,
step recording, failure recovery / break, and URL-change detection), as
fallen through to from both the non-extract path and the failed extract
path. -/
def execNormal (env : WebEnv) (it : Nat) (dec : WDecision) (st : LoopState) :
    NormalStep :=
  let ar := env.act st.ctr dec.action
  let step : WStep := ⟨it, dec.action, ar, env.pageUrl (st.ctr + 1)⟩
  let st1 : LoopState :=
    { st with
        ctr := st.ctr + 2, allSteps := st.allSteps ++ [step] }
  if !ar.success then
    if it < maxIterations - 1 then .continueLoop st1
    else .exitLoop st1
  else
    let newUrl := env.pageUrl st1.ctr
    .continueLoop { st1 with ctr := st1.ctr + 1, currentUrl := newUrl }

/-- Whether the decision's action is an `extract` action. -/
def isExtract : Option ActionV → Bool
  | some a => a.type = "extract"
  | none => false

/-- Default extraction payload for total projections. -/
def dfltExtract : ExtractData := ⟨none, none, ""⟩

/-- The main iteration loop (`while (!taskCompleted && currentIteration <
maxIterations)`).  The `fuel` argument (started at `maxIterations`) only
makes the recursion structural; the loop guard on `currentIteration` is
checked exactly as in the source and is what bounds the run. -/
def webLoop (env : WebEnv) (task : String) : Nat → LoopState → LoopExit × LoopState
  | 0, st => (.ranOut, st)
  | fuel + 1, st =>
      if st.currentIteration < maxIterations then
        let it := st.currentIteration + 1
        let st0 : LoopState := { st with currentIteration := it }
        let dom := env.perceive it
        let dec := env.decide it dom
        if dec.isCompleted && decide ((7 : ℚ)/10 < dec.confidence) then
          (.completedAnswer dec.finalAnswer, st0)
        else
          if isExtract dec.action then
            let ar := env.act st0.ctr dec.action
            let st1 : LoopState := { st0 with ctr := st0.ctr + 1 }
            if ar.success && ar.data.isSome then
              if dataHasItems ar.data then
                (.completedExtract (ar.data.getD dfltExtract) (itemCount ar.data), st1)
              else
                let step : WStep := ⟨it, dec.action, ar, env.pageUrl st1.ctr⟩
                webLoop env task fuel
                  { st1 with
                      ctr := st1.ctr + 1, allSteps := st1.allSteps ++ [step] }
            else
              match execNormal env it dec st1 with
              | .continueLoop st2 => webLoop env task fuel st2
              | .exitLoop st2 => (.ranOut, st2)
          else
            match execNormal env it dec st0 with
            | .continueLoop st2 => webLoop env task fuel st2
            | .exitLoop st2 => (.ranOut, st2)
      else (.ranOut, st)

/-- Final result payloads (`finalResult` / the partial summary of
`generatePartialResult`). -/
inductive WOutcome where
  | answer (finalAnswer : Option String)
  | extracted (d : ExtractData) (count : Nat)
  | finalExtracted (d : ExtractData)
  | partialData (best : WStep) (steps : Nat)
  | incomplete (summary : String) (steps : Nat)
  | incompleteFallback (steps : Nat)
deriving DecidableEq

/-- Count used by `generatePartialResult`'s best-extraction selection. -/
def stepItemCount (s : WStep) : Nat := itemCount s.result.data

/-- Embedding of `generatePartialResult(task, allSteps)`: prefer the best
recorded extraction; otherwise ask the model for a summary, with a
hard-coded fallback when that call throws. -/
def generatePartialResult (env : WebEnv) (allSteps : List WStep) : WOutcome :=
  let extractionSteps := allSteps.filter (fun s => dataHasItems s.result.data)
  match extractionSteps with
  | best0 :: rest =>
      let best := rest.foldl
        (fun best cur => if stepItemCount best < stepItemCount cur then cur else best)
        best0
      .partialData best allSteps.length
  | [] =>
      match env.summarize with
      | .ok s => .incomplete s allSteps.length
      | .error _ => .incompleteFallback allSteps.length

/-- The record returned by a WebAgent run: the regular
`(isCompleted, result, totalIterations, url, task)` shape or the fatal
`(isCompleted:false, error:true, message, url, task)` envelope. -/
inductive WebResult where
  | finished (isCompleted : Bool) (result : WOutcome) (totalIterations : Nat)
      (url : String) (task : String)
  | fatal (message : String) (url : String) (task : String)
deriving DecidableEq

/-- Run events; `.launch` marks that the browser boundary was reached. -/
inductive WEvent where
  | launch
deriving DecidableEq

/-- Parameters of a WebAgent invocation. -/
structure WebParams where
  url : Option String
  task : Option String
deriving DecidableEq

/-- Shallow embedding of `WebAgent(params)` (later revision): parameter
validation (throwing — modelled as `Except.error` — before any browser
work), browser init with fatal-error envelope, the bounded main loop, the
final extraction attempt, and partial-result generation.  The second
component records whether the browser boundary was reached. -/
def WebAgentRun (env : WebEnv) (ps : WebParams) :
    Except String WebResult × List WEvent :=
  if !(truthyOS ps.url && truthyOS ps.task) then
    (.error "Both 'url' and 'task' are required.", [])
  else
    let url := ps.url.getD ""
    let task := ps.task.getD ""
    match env.launch with
    | .error e => (.ok (.fatal ("WebAgent failed: " ++ e) url task), [.launch])
    | .ok _ =>
        match env.goto with
        | .error e => (.ok (.fatal ("WebAgent failed: " ++ e) url task), [.launch])
        | .ok _ =>
            match env.robotCheck with
            | .error e => (.ok (.fatal ("WebAgent failed: " ++ e) url task), [.launch])
            | .ok _ =>
                let r := webLoop env task maxIterations ⟨0, 0, url, []⟩
                match r.1 with
                | .completedAnswer ans =>
                    (.ok (.finished true (.answer ans) r.2.currentIteration
                      (env.pageUrl r.2.ctr) task), [.launch])
                | .completedExtract d cnt =>
                    (.ok (.finished true (.extracted d cnt) r.2.currentIteration
                      (env.pageUrl r.2.ctr) task), [.launch])
                | .ranOut =>
                    match env.finalExtract with
                    | .ok d =>
                        if (match d.items with
                            | some its => decide (0 < its.length)
                            | none => false) then
                          (.ok (.finished true (.finalExtracted d) r.2.currentIteration
                            (env.pageUrl r.2.ctr) task), [.launch])
                        else
                          (.ok (.finished false (generatePartialResult env r.2.allSteps)
                            r.2.currentIteration (env.pageUrl r.2.ctr) task), [.launch])
                    | .error _ =>
                        (.ok (.finished false (generatePartialResult env r.2.allSteps)
                          r.2.currentIteration (env.pageUrl r.2.ctr) task), [.launch])

/-- `totalIterations` of a run outcome (0 for throws and fatal
envelopes, which carry none). -/
def totalIterationsOf : Except String WebResult → Nat
  | .ok (.finished _ _ n _ _) => n
  | _ => 0

/-- A trivial concrete environment for witnesses. -/
def wEnvDflt : WebEnv :=
  ⟨.ok (), .ok (), .ok false,
   fun _ => ⟨[]⟩,
   fun _ _ => ⟨none, false, 0, none⟩,
   fun _ _ => ⟨false, none⟩,
   fun _ => "about:blank",
   .error "no extraction",
   .error "no summary"⟩

end WA

end Jarvis

namespace Jarvis

/-! ## Helper lemmas -/

theorem lastIdx_lt_length (c : Char) (l : List Char) :
    lastIdx c l < (l.length : Int) := by
  induction l with
  | nil => simp [lastIdx]
  | cons a l ih =>
      simp only [lastIdx, List.length_cons]
      split
      · push_cast; omega
      · split <;> push_cast <;> omega

theorem dropWhile_length_le (p : Char → Bool) (l : List Char) :
    (l.dropWhile p).length ≤ l.length := by
  induction l with
  | nil => simp
  | cons a l ih =>
      by_cases h : p a
      · simp only [List.dropWhile_cons, h, if_true, List.length_cons]
        omega
      · simp [List.dropWhile_cons, h]

theorem trimEnds_length_le (l : List Char) : (trimEnds l).length ≤ l.length := by
  unfold trimEnds
  have h1 := dropWhile_length_le wsChar l
  have h2 := dropWhile_length_le wsChar (l.dropWhile wsChar).reverse
  simp only [List.length_reverse] at *
  omega

/-! ## Claim C7 — truncation round-trip (`ContentManager.truncateContent`) -/

/-- C7 counterexample: the claim quantifies over every target length `L`, but
for `L = 0` the JS expression `maxLength || this.maxContentLength` treats the
argument as absent (0 is falsy), so `truncate("ab", 0)` returns `"ab"`
unchanged and appends no truncation marker, although `"ab".length > 0`. -/
theorem truncateContent_zero_target_cex :
    0 < ("ab").data.length ∧
    CM.truncateContent 6000 (("ab").data) (some 0) = ("ab").data ∧
    CM.truncMarker.isSuffixOf (CM.truncateContent 6000 (("ab").data) (some 0)) = false := by
  exact ⟨by decide, by decide, by decide⟩

/-- C7 (amended): for every string `s` and every target length `L ≥ 1`
(a target length of 0 is falsy in JS and treated as absent), `truncate`
returns `s` unchanged when `s.length ≤ L`; otherwise the result is the
trimmed prefix of `s` cut at the best of the last sentence end, last newline
or last space lying beyond 80% of `L` (else hard-cut at `L`), with the
truncation marker appended, and its length is at most `L` plus the marker's
length. -/
theorem truncateContent_spec (cfgMax : Nat) (s : List Char) (L : Nat) (hL : 1 ≤ L) :
    (s.length ≤ L → CM.truncateContent cfgMax s (some L) = s) ∧
    (L < s.length →
      CM.truncateContent cfgMax s (some L)
          = trimEnds (s.take (CM.cutPointSpec s L)) ++ CM.truncMarker ∧
      CM.cutPointSpec s L ≤ L ∧
      (CM.truncateContent cfgMax s (some L)).length ≤ L + CM.truncMarker.length) := by
  have hL0 : ¬ (L = 0) := by omega
  constructor
  · intro h
    by_cases hnil : s = []
    · subst hnil; simp [CM.truncateContent]
    · simp [CM.truncateContent, hnil, hL0, h]
  · intro h
    have hnil : s ≠ [] := by
      intro e
      rw [e] at h
      simp at h
    have hlen : ¬ (s.length ≤ L) := by omega
    have hpre : (s.take L).length = L := by
      rw [List.length_take]
      omega
    have hlp := lastIdx_lt_length '.' (s.take L)
    have hln := lastIdx_lt_length '\n' (s.take L)
    have hls := lastIdx_lt_length ' ' (s.take L)
    rw [hpre] at hlp hln hls
    have key :
        CM.truncateContent cfgMax s (some L)
          = trimEnds (s.take (CM.cutPointSpec s L)) ++ CM.truncMarker ∧
        CM.cutPointSpec s L ≤ L := by
      simp only [CM.truncateContent, CM.cutPointSpec, if_neg hnil, if_neg hL0,
        if_neg hlen]
      split_ifs
      all_goals try exact ⟨rfl, by omega⟩
      all_goals try (refine ⟨?_, by omega⟩; simp)
      all_goals (exfalso; omega)
    refine ⟨key.1, key.2, ?_⟩
    rw [key.1]
    have h1 := trimEnds_length_le (s.take (CM.cutPointSpec s L))
    have h2 : (s.take (CM.cutPointSpec s L)).length ≤ CM.cutPointSpec s L := by
      rw [List.length_take]
      omega
    rw [List.length_append]
    omega

/-- Witness for `truncateContent_spec` at a concrete input. -/
theorem truncateContent_spec_witness :
    CM.truncateContent 6000 (("one. two three").data) (some 10)
        = trimEnds ((("one. two three").data).take
            (CM.cutPointSpec (("one. two three").data) 10)) ++ CM.truncMarker ∧
    (CM.truncateContent 6000 (("one. two three").data) (some 10)).length
        ≤ 10 + CM.truncMarker.length := by
  have h := (truncateContent_spec 6000 (("one. two three").data) 10 (by decide)).2
    (by decide)
  exact ⟨h.1, h.2.2⟩

/-! ## Claims C5 and C6 — cloud backend retries and key rotation -/

/-- Invariant of the retry loop, proved by induction on the remaining
budget: the trace is bounded by the budget, every non-final attempt failed
with a retryable error, keys are consumed in cyclic round-robin order, a
trace ending in an error yields the aggregated failure naming that error,
and a non-retryable error ends the trace. -/
theorem googleLoop_spec (invoke : Nat → String → Except LC.GErr String)
    (maxRetries : Nat) :
    ∀ (remaining attempt : Nat) (ks : LC.KeyState) (lastError : Option LC.GErr),
    (LC.googleLoop invoke maxRetries remaining attempt ks lastError).2.2.length
        ≤ remaining ∧
    (∀ i, i + 1 <
        (LC.googleLoop invoke maxRetries remaining attempt ks lastError).2.2.length →
      ∃ e, ((LC.googleLoop invoke maxRetries remaining attempt ks
          lastError).2.2.getD i LC.dfltEntry).2 = some e ∧ LC.isRetryableErr e = true) ∧
    (ks.currentIndex < ks.apiKeys.length →
      ∀ i, i <
        (LC.googleLoop invoke maxRetries remaining attempt ks lastError).2.2.length →
      ((LC.googleLoop invoke maxRetries remaining attempt ks
          lastError).2.2.getD i LC.dfltEntry).1
        = ks.apiKeys.getD ((ks.currentIndex + i) % ks.apiKeys.length) "") ∧
    (∀ e i, i + 1 =
        (LC.googleLoop invoke maxRetries remaining attempt ks lastError).2.2.length →
      ((LC.googleLoop invoke maxRetries remaining attempt ks
          lastError).2.2.getD i LC.dfltEntry).2 = some e →
      (LC.googleLoop invoke maxRetries remaining attempt ks lastError).1
        = .error (LC.aggMsg maxRetries (some e))) ∧
    (∀ i e, i <
        (LC.googleLoop invoke maxRetries remaining attempt ks lastError).2.2.length →
      ((LC.googleLoop invoke maxRetries remaining attempt ks
          lastError).2.2.getD i LC.dfltEntry).2 = some e →
      LC.isRetryableErr e = false →
      i + 1 = (LC.googleLoop invoke maxRetries remaining attempt ks
          lastError).2.2.length) ∧
    ((LC.googleLoop invoke maxRetries remaining attempt ks lastError).2.2 = [] →
      (LC.googleLoop invoke maxRetries remaining attempt ks lastError).1
        = .error (LC.aggMsg maxRetries lastError)) := by
  intro remaining
  induction remaining with
  | zero =>
      intro attempt ks lastError
      refine ⟨by simp [LC.googleLoop], ?_, ?_, ?_, ?_, ?_⟩ <;>
        simp [LC.googleLoop]
  | succ r ih =>
      intro attempt ks lastError
      simp only [LC.googleLoop]
      cases hinv : invoke attempt (LC.getNextKey ks).1 with
      | ok v =>
        refine ⟨by simp, ?_, ?_, ?_, ?_, ?_⟩
        · intro i hi
          simp at hi
        · intro hidx i hi
          simp only [List.length_cons, List.length_nil] at hi
          interval_cases i
          simp [LC.getNextKey, Nat.mod_eq_of_lt hidx]
        · intro e i hi h2
          simp only [List.length_cons, List.length_nil] at hi
          have : i = 0 := by omega
          subst this
          simp at h2
        · intro i e hi h2
          simp only [List.length_cons, List.length_nil] at hi
          have : i = 0 := by omega
          subst this
          simp at h2
        · intro hh
          simp at hh
      | error e =>
        by_cases hr : LC.isRetryableErr e
        · simp only [if_pos hr]
          obtain ⟨ih1, ih2, ih3, ih4, ih5, ih6⟩ := ih (attempt + 1) (LC.getNextKey ks).2 (some e)
          refine ⟨by simp; omega, ?_, ?_, ?_, ?_, ?_⟩
          · intro i hi
            cases i with
            | zero => exact ⟨e, by simp, hr⟩
            | succ j =>
                simp only [List.length_cons] at hi
                have := ih2 j (by omega)
                simpa using this
          · intro hidx i hi
            have hn : 0 < ks.apiKeys.length := by omega
            cases i with
            | zero =>
                simp [LC.getNextKey, Nat.mod_eq_of_lt hidx]
            | succ j =>
                simp only [List.length_cons] at hi
                have hidx' : (LC.getNextKey ks).2.currentIndex < (LC.getNextKey ks).2.apiKeys.length := by
                  simp [LC.getNextKey]
                  exact Nat.mod_lt _ hn
                have := ih3 hidx' j (by omega)
                simp only [LC.getNextKey] at this ⊢
                simp only [List.getD_cons_succ]
                rw [this]
                congr 1
                rw [Nat.mod_add_mod]
                congr 1
                omega
          · intro e' i hi h2
            cases i with
            | zero =>
                have hlen0 : (LC.googleLoop invoke maxRetries r (attempt + 1) (LC.getNextKey ks).2
                    (some e)).2.2.length = 0 := by
                  simp only [List.length_cons] at hi
                  omega
                have hres := ih6 (List.length_eq_zero.mp hlen0)
                simp only [List.getD_cons_zero] at h2
                cases h2
                exact hres
            | succ j =>
                simp only [List.length_cons] at hi
                have h2' : ((LC.googleLoop invoke maxRetries r (attempt + 1) (LC.getNextKey ks).2
                    (some e)).2.2.getD j LC.dfltEntry).2 = some e' := by
                  simpa using h2
                have := ih4 e' j (by omega) h2'
                simpa using this
          · intro i e' hi h2 h3
            cases i with
            | zero =>
                simp only [List.getD_cons_zero] at h2
                cases h2
                rw [hr] at h3
                cases h3
            | succ j =>
                simp only [List.length_cons] at hi
                have := ih5 j e' (by omega) (by simpa using h2) h3
                simp only [List.length_cons]
                omega
          · intro hh
            simp at hh
        · simp only [if_neg hr]
          refine ⟨by simp, ?_, ?_, ?_, ?_, ?_⟩
          · intro i hi
            simp at hi
          · intro hidx i hi
            simp only [List.length_cons, List.length_nil] at hi
            interval_cases i
            simp [LC.getNextKey, Nat.mod_eq_of_lt hidx]
          · intro e' i hi h2
            simp only [List.length_cons, List.length_nil] at hi
            have : i = 0 := by omega
            subst this
            simp at h2
            subst h2
            rfl
          · intro i e' hi h2 h3
            simp only [List.length_cons, List.length_nil] at hi ⊢
            omega
          · intro hh
            simp at hh

/-- C5: every cloud-backend completion call makes at most `min(3, keyCount)`
attempts; every attempt before the last failed with a quota/rate/limit/429
error and was followed by a retry on the next key in cyclic order; a
non-retryable error ends the attempt sequence immediately; and whenever the
final attempt failed, the call raises the single aggregated error naming the
last underlying error. -/
theorem callGoogleAI_retry_policy (invoke : Nat → String → Except LC.GErr String)
    (ks : LC.KeyState) (hidx : ks.currentIndex < ks.apiKeys.length) :
    (LC.callGoogleAI invoke ks).2.2.length ≤ min 3 ks.apiKeys.length ∧
    (∀ i, i + 1 < (LC.callGoogleAI invoke ks).2.2.length →
      ∃ e, ((LC.callGoogleAI invoke ks).2.2.getD i LC.dfltEntry).2 = some e ∧
        LC.isRetryableErr e = true) ∧
    (∀ i, i < (LC.callGoogleAI invoke ks).2.2.length →
      ((LC.callGoogleAI invoke ks).2.2.getD i LC.dfltEntry).1
        = ks.apiKeys.getD ((ks.currentIndex + i) % ks.apiKeys.length) "") ∧
    (∀ i e, i < (LC.callGoogleAI invoke ks).2.2.length →
      ((LC.callGoogleAI invoke ks).2.2.getD i LC.dfltEntry).2 = some e →
      LC.isRetryableErr e = false →
      i + 1 = (LC.callGoogleAI invoke ks).2.2.length) ∧
    (∀ e i, i + 1 = (LC.callGoogleAI invoke ks).2.2.length →
      ((LC.callGoogleAI invoke ks).2.2.getD i LC.dfltEntry).2 = some e →
      (LC.callGoogleAI invoke ks).1
        = .error (LC.aggMsg (min 3 ks.apiKeys.length) (some e))) := by
  obtain ⟨h1, h2, h3, h4, h5, h6⟩ :=
    googleLoop_spec invoke (min 3 ks.apiKeys.length) (min 3 ks.apiKeys.length) 0 ks none
  exact ⟨h1, h2, h3 hidx, h5, h4⟩

/-- Witness for `callGoogleAI_retry_policy`: three keys, a first attempt
failing with a quota error, a second succeeding on the next key. -/
theorem callGoogleAI_retry_policy_witness :
    (LC.callGoogleAI LC.invokeQuotaThenOk LC.ks3).2.2.length
        ≤ min 3 LC.ks3.apiKeys.length ∧
    ((LC.callGoogleAI LC.invokeQuotaThenOk LC.ks3).2.2.getD 1 LC.dfltEntry).1
        = LC.ks3.apiKeys.getD ((LC.ks3.currentIndex + 1) % LC.ks3.apiKeys.length) "" := by
  have h := callGoogleAI_retry_policy LC.invokeQuotaThenOk LC.ks3 (by decide)
  exact ⟨h.1, h.2.2.1 1 (by decide)⟩

/-- Single error-free call: one attempt, the key at the current index is
used, and the index advances by one modulo the key count. -/
theorem callGoogleAI_ok (resp : String) (ks : LC.KeyState)
    (hne : ks.apiKeys ≠ []) :
    LC.callGoogleAI (fun _ _ => .ok resp) ks
      = (.ok resp,
          ⟨ks.apiKeys, (ks.currentIndex + 1) % ks.apiKeys.length⟩,
          [(ks.apiKeys.getD ks.currentIndex "", none)]) := by
  have hn : 0 < ks.apiKeys.length := List.length_pos.mpr hne
  have hm : min 3 ks.apiKeys.length = (min 3 ks.apiKeys.length - 1) + 1 := by omega
  unfold LC.callGoogleAI
  rw [hm]
  simp [LC.googleLoop, LC.getNextKey]

/-- Evolution of `runCallsFrom` under error-free calls: after `m` calls the
index has advanced by `m` modulo the key count and the keys used are the
`m` successive keys in cyclic order. -/
theorem runCallsFrom_ok (resp : Nat → String) (keys : List String) (hne : keys ≠ []) :
    ∀ (m c i : Nat), i < keys.length →
      LC.runCallsFrom resp c m ⟨keys, i⟩
        = (⟨keys, (i + m) % keys.length⟩,
            (List.range m).map (fun j => keys.getD ((i + j) % keys.length) "")) := by
  have hn : 0 < keys.length := List.length_pos.mpr hne
  intro m
  induction m with
  | zero =>
      intro c i hi
      simp [LC.runCallsFrom, Nat.mod_eq_of_lt hi]
  | succ m ih =>
      intro c i hi
      rw [LC.runCallsFrom]
      rw [callGoogleAI_ok _ _ hne]
      rw [ih (c + 1) ((i + 1) % keys.length) (Nat.mod_lt _ hn)]
      refine Prod.ext ?_ ?_
      · simp only
        congr 1
        rw [Nat.mod_add_mod]
        congr 1
        omega
      · simp only [List.map_cons, List.map_nil, List.range_succ_eq_map, List.map_map]
        rw [List.cons_append, List.nil_append]
        congr 1
        · congr 1
          simp [Nat.mod_eq_of_lt hi]
        · apply List.map_congr_left
          intro j hj
          simp only [Function.comp_apply]
          congr 1
          rw [Nat.mod_add_mod]
          congr 1
          omega

/-- Keys used over one full error-free cycle equal the rotation of the key
list at the starting index. -/
theorem range_map_getD_eq_rotate (keys : List String) (i : Nat) (hi : i < keys.length) :
    (List.range keys.length).map (fun j => keys.getD ((i + j) % keys.length) "")
      = keys.rotate i := by
  have hn : 0 < keys.length := by omega
  apply List.ext_getElem
  · simp [List.length_rotate]
  · intro j h1 h2
    simp only [List.getElem_map, List.getElem_range]
    rw [List.getElem_rotate]
    rw [List.getD_eq_getElem]
    · congr 1
      rw [Nat.add_comm]
    · exact Nat.mod_lt _ hn

/-- C6: for `N ≥ 1` configured keys and `N` consecutive error-free
completion calls, the keys used are exactly the key list rotated to the
starting index (so each key is used exactly once, in cyclic order), and the
rotation index after the `N` calls equals the index before them. -/
theorem key_rotation_fairness (resp : Nat → String) (keys : List String) (i0 : Nat)
    (hidx : i0 < keys.length) :
    (LC.runCallsFrom resp 0 keys.length ⟨keys, i0⟩).1 = ⟨keys, i0⟩ ∧
    (LC.runCallsFrom resp 0 keys.length ⟨keys, i0⟩).2 = keys.rotate i0 ∧
    (LC.runCallsFrom resp 0 keys.length ⟨keys, i0⟩).2.Perm keys := by
  have hne : keys ≠ [] := by
    intro e
    rw [e] at hidx
    simp at hidx
  rw [runCallsFrom_ok resp keys hne keys.length 0 i0 hidx]
  have hr := range_map_getD_eq_rotate keys i0 hidx
  refine ⟨?_, hr, ?_⟩
  · simp [Nat.add_mod_right, Nat.mod_eq_of_lt hidx]
  · rw [hr]
    exact List.rotate_perm keys i0

/-- Witness for `key_rotation_fairness`: three keys starting at index 1. -/
theorem key_rotation_fairness_witness :
    (LC.runCallsFrom (fun _ => "r") 0 (["a", "b", "c"] : List String).length
        ⟨["a", "b", "c"], 1⟩).1 = ⟨["a", "b", "c"], 1⟩ ∧
    (LC.runCallsFrom (fun _ => "r") 0 (["a", "b", "c"] : List String).length
        ⟨["a", "b", "c"], 1⟩).2 = (["a", "b", "c"] : List String).rotate 1 := by
  have h := key_rotation_fairness (fun _ => "r") ["a", "b", "c"] 1 (by decide)
  exact ⟨h.1, h.2.1⟩

/-! ## Claim C4 — formatter completeness (`ResponseFormatterAgent`) -/

/-- Prefixing text never removes bullet-item matches. -/
theorem countBullet_append_ge (a b : List Char) :
    Fmt.countBullet b ≤ Fmt.countBullet (a ++ b) := by
  induction a with
  | nil => simp
  | cons c a ih =>
      rw [List.cons_append, Fmt.countBullet]
      omega

/-- A bullet-marker-headed block contributes a bullet match on top of
whatever follows it. -/
theorem countBullet_bullet_block (body t : List Char) :
    Fmt.countBullet t + 1
      ≤ Fmt.countBullet ('•' :: ' ' :: '*' :: '*' :: (body ++ t)) := by
  have hm : Fmt.afterBulletMarker ('•' :: ' ' :: '*' :: '*' :: (body ++ t))
      = some (body ++ t) := rfl
  rw [Fmt.countBullet, hm]
  simp only [Option.isSome_some, if_true]
  have htail := countBullet_append_ge (' ' :: '*' :: '*' :: body) t
  simp only [List.cons_append] at htail
  omega

/-- Each product block of the deterministic formatter contributes a bullet
match. -/
theorem countBullet_directBlock (env : Fmt.FmtEnv) (i : Nat) (p : Fmt.Product)
    (t : List Char) :
    Fmt.countBullet t + 1 ≤ Fmt.countBullet (Fmt.directBlock env i p ++ t) := by
  have hshape : Fmt.directBlock env i p ++ t
      = '•' :: ' ' :: '*' :: '*' :: (Fmt.directBlockBody env i p ++ t) := by
    rw [Fmt.directBlock]
    rfl
  rw [hshape]
  exact countBullet_bullet_block (Fmt.directBlockBody env i p) t

/-- The deterministic block list yields at least one bullet match per
product. -/
theorem countBullet_directBlocks (env : Fmt.FmtEnv) (ps : List Fmt.Product) :
    ∀ (i : Nat) (t : List Char),
      ps.length + Fmt.countBullet t ≤ Fmt.countBullet (Fmt.directBlocks env i ps ++ t) := by
  induction ps with
  | nil => intro i t; simp [Fmt.directBlocks]
  | cons p ps ih =>
      intro i t
      rw [Fmt.directBlocks, List.append_assoc]
      have h1 := countBullet_directBlock env i p (Fmt.directBlocks env (i + 1) ps ++ t)
      have h2 := ih (i + 1) t
      simp only [List.length_cons]
      omega

set_option maxRecDepth 4000 in
/-- The deterministic formatter emits at least one bullet entry per source
item. -/
theorem countBullet_direct_ge (env : Fmt.FmtEnv) (up : List Char)
    (d : Fmt.ExtractedData) (src : List Char) (ps : List Fmt.Product)
    (hps : d.products = some ps) (hk : 0 < ps.length) :
    ps.length ≤ Fmt.countBullet (Fmt.createDirectFormattedResponse env up d src) := by
  have hk' : ¬ (ps.length = 0) := by omega
  simp only [Fmt.createDirectFormattedResponse, hps, if_neg hk']
  have h1 := countBullet_directBlocks env ps 0
    (("---\n*Source: ").data ++ Fmt.jsOr d.pageUrl src ++ (" | Found ").data ++
      (toString ps.length).data ++ (" products | Updated: ").data ++ env.today ++ ("*").data)
  have h2 := countBullet_append_ge
    (("## Best Phones Under ₹20,000 on Amazon\n\n").data ++
      ("I found ").data ++ (toString ps.length).data ++
      (" great options that fit your budget. Here are all the phones with their details:\n\n").data)
    (Fmt.directBlocks env 0 ps ++
      (("---\n*Source: ").data ++ Fmt.jsOr d.pageUrl src ++ (" | Found ").data ++
        (toString ps.length).data ++ (" products | Updated: ").data ++ env.today ++ ("*").data))
  simp only [List.append_assoc] at h1 h2 ⊢
  omega

set_option maxRecDepth 100000 in
/-- C4 counterexample: the claim promises at least `0.8 k` bullet entries
for every payload of `k > 0` items, but when the completion call throws the
catch-path fallback lists only the first 10 items, so a 13-item payload
yields 10 entries, below `0.8 * 13 = 10.4`. -/
theorem formatter_completeness_cex :
    Fmt.cexProducts.length = 13 ∧
    (Fmt.ResponseFormatterAgent Fmt.cexEnv Fmt.cexParams).isCompleted = true ∧
    5 * Fmt.countBullet ((Fmt.ResponseFormatterAgent Fmt.cexEnv Fmt.cexParams).response)
        < 4 * Fmt.cexProducts.length := by
  exact ⟨by decide, by decide, by decide⟩

/-- C4 (amended): whenever the completion call returns (does not throw) and
the source payload carries `k > 0` products, the formatter's final response
contains at least `0.8 k` bullet-item matches: if the model text already
does, it is kept; otherwise it is discarded for the deterministic formatter,
which emits one bullet block per item (and hence at least `k` matches).
When the completion call throws, the catch-path fallback lists at most the
first 10 items, so the bound only holds there for `k ≤ 12`. -/
theorem formatter_completeness (env : Fmt.FmtEnv) (params : Fmt.FmtParams)
    (ar : Fmt.FmtAgentResult) (t : List Char) (ps : List Fmt.Product)
    (har : params.agentResult = some ar)
    (hprompt : params.userPrompt ≠ [])
    (hok : env.llmOutcome = .ok t)
    (hps : (Fmt.extractPayload ar).1.products = some ps)
    (hk : 0 < ps.length) :
    4 * ps.length
        ≤ 5 * Fmt.countBullet ((Fmt.ResponseFormatterAgent env params).response) ∧
    (5 * Fmt.countBullet (trimEnds t) < 4 * ps.length →
      (Fmt.ResponseFormatterAgent env params).response
        = Fmt.createDirectFormattedResponse env params.userPrompt
            (Fmt.extractPayload ar).1 (Fmt.extractPayload ar).2) ∧
    ps.length ≤ Fmt.countBullet (Fmt.createDirectFormattedResponse env params.userPrompt
        (Fmt.extractPayload ar).1 (Fmt.extractPayload ar).2) := by
  have hvalid : ¬ (params.userPrompt = [] ∨ params.agentResult = none) := by
    intro hc
    rcases hc with hc | hc
    · exact hprompt hc
    · rw [har] at hc; cases hc
  have hdirect := countBullet_direct_ge env params.userPrompt
    (Fmt.extractPayload ar).1 (Fmt.extractPayload ar).2 ps hps hk
  have hvalid' : ¬ (params.userPrompt = [] ∨ (some ar : Option Fmt.FmtAgentResult) = none) := by
    intro hc
    rcases hc with hc | hc
    · exact hprompt hc
    · cases hc
  have hmain : (Fmt.ResponseFormatterAgent env params).response
      = (if 5 * Fmt.countBullet (trimEnds t) < 4 * ps.length then
          Fmt.createDirectFormattedResponse env params.userPrompt
            (Fmt.extractPayload ar).1 (Fmt.extractPayload ar).2
        else trimEnds t) := by
    simp only [Fmt.ResponseFormatterAgent, har, hok, hps, if_pos hk, if_neg hvalid']
  refine ⟨?_, ?_, hdirect⟩
  · rw [hmain]
    split_ifs with hcheck
    · omega
    · omega
  · intro hcheck
    rw [hmain, if_pos hcheck]

/-! ## Claims C1, C2, C3, C10 — dispatcher and router -/

/-- Dichotomy of the Decision Router's post-processing: either the result is
a completed direct answer (no routing), or the model decision was an honored
`Route` — which forces the target to be the only implemented, non-planned
registry entry (`WebAgent`), not yet failed, outside final-formulation
mode. -/
theorem BaseAgentF_cases (env : AM.AmEnv) (p : AM.PromptV) (la : Option String)
    (pr : AM.Progress) :
    ((AM.BaseAgentF env p la pr).isCompleted = true ∧
      (AM.BaseAgentF env p la pr).nextAgent = none) ∨
    (∃ prms, env.route p la pr = .route "WebAgent" prms ∧
      pr.finalFormulation = false ∧ "WebAgent" ∉ pr.failedAgents ∧
      AM.BaseAgentF env p la pr
        = { AM.JsResult.base with
            isCompleted := false, nextAgent := some "WebAgent",
            routeParams := prms }) := by
  unfold AM.BaseAgentF
  split
  · left; exact ⟨rfl, rfl⟩
  · split
    · left; exact ⟨rfl, rfl⟩
    · left; exact ⟨rfl, rfl⟩
    · rename_i nextA prms heq
      split_ifs with hff hfail
      · left; exact ⟨rfl, rfl⟩
      · left; exact ⟨rfl, rfl⟩
      · split
        · left; exact ⟨rfl, rfl⟩
        · rename_i cfg hfind
          split_ifs with hpl
          · left; exact ⟨rfl, rfl⟩
          · right
            have hname : cfg.name = nextA := by
              have := List.find?_some hfind
              simpa using this
            have hmem := List.mem_of_find?_eq_some hfind
            have hweb : nextA = "WebAgent" := by
              fin_cases hmem <;> simp_all
            subst hweb
            refine ⟨prms, heq, ?_, ?_, rfl⟩
            · simpa using hff
            · simpa using hfail

/-- Completed router results never carry a routing target. -/
theorem BaseAgentF_blocked (env : AM.AmEnv) (p : AM.PromptV) (la : Option String)
    (pr : AM.Progress) (hw : "WebAgent" ∈ pr.failedAgents) :
    (AM.BaseAgentF env p la pr).isCompleted = true ∧
    (AM.BaseAgentF env p la pr).nextAgent = none := by
  rcases BaseAgentF_cases env p la pr with h | ⟨prms, _, _, hnf, _⟩
  · exact h
  · exact absurd hw hnf

/-- A task whose progress already lists `WebAgent` as failed performs no
further executor invocation and no recursion: the router's failed-agent
guard stops the chain at the first decision (as `WebAgent` is the only
implemented executor). -/
theorem executeTask_blocked (env : AM.AmEnv) (p : AM.PromptV) (la : Option String)
    (pr : AM.Progress) (k : Int) (hw : "WebAgent" ∈ pr.failedAgents)
    (hk : ¬ (k ≤ 0)) :
    (AM.executeTask env p la pr k).2 = [] ∧
    (AM.executeTask env p la pr k).1.isCompleted = true := by
  rw [AM.executeTask]
  rw [dif_neg hk]
  have hself : (if la = none ∨ la = some "BaseAgent" then AM.BaseAgentF env p la pr
      else AM.handleAgentContinuation env p la pr) = AM.BaseAgentF env p la pr := by
    rw [AM.handleAgentContinuation]
    exact ite_self _
  rw [hself]
  have hb := BaseAgentF_blocked env p la pr hw
  simp [hb.1, hb.2, AM.truthyStr]

/-- Trace-only corollary of `executeTask_blocked`, in rewrite form. -/
theorem executeTask_blocked_trace (env : AM.AmEnv) (p : AM.PromptV)
    (la : Option String) (pr : AM.Progress) (k : Int)
    (hw : "WebAgent" ∈ pr.failedAgents) (hk : ¬ (k ≤ 0)) :
    (AM.executeTask env p la pr k).2 = [] :=
  (executeTask_blocked env p la pr k hw hk).1

/-- Characterization of the event trace of routing to `WebAgent`: no
invocation (parameter validation failed), a single invocation, or an
invocation followed by one recursive continuation at the remaining depth,
whose inner run contributes nothing (the failed-agent guard blocks it). -/
theorem routeToAgent_trace (env : AM.AmEnv) (prms : List String) (p : AM.PromptV)
    (pr : AM.Progress) (d : Int) :
    (AM.routeToAgent env "WebAgent" prms p pr d).2 = [] ∨
    (AM.routeToAgent env "WebAgent" prms p pr d).2
        = [.invoke "WebAgent" pr.failedAgents] ∨
    (AM.routeToAgent env "WebAgent" prms p pr d).2
        = [.invoke "WebAgent" pr.failedAgents,
           .recurse "WebAgent" d (pr.failedAgents ++ ["WebAgent"])] := by
  rw [AM.routeToAgent]
  norm_num [AM.AVAILABLE_AGENTS, AM.implementedAgents, List.find?]
  split_ifs <;>
    first
      | (left; rfl)
      | (right; left; rfl)
      | (right; right
         rw [executeTask_blocked_trace] <;>
           first
             | rfl
             | (simp; done)
             | (rename_i hcj hlast; have hdp := hcj.2; omega))

/-- Characterization of the event trace of any task execution: it is empty,
a single depth-guard error, a single `WebAgent` invocation, or an
invocation followed by one recursive continuation at depth `k - 1`, and in
the invocation cases `WebAgent` was not yet failed. -/
theorem executeTask_trace_char (env : AM.AmEnv) (p : AM.PromptV) (la : Option String)
    (pr : AM.Progress) (k : Int) :
    (AM.executeTask env p la pr k).2 = [] ∨
    (AM.executeTask env p la pr k).2 = [.depthError k] ∨
    ("WebAgent" ∉ pr.failedAgents ∧
      ((AM.executeTask env p la pr k).2 = [.invoke "WebAgent" pr.failedAgents] ∨
       (AM.executeTask env p la pr k).2
         = [.invoke "WebAgent" pr.failedAgents,
            .recurse "WebAgent" (k - 1) (pr.failedAgents ++ ["WebAgent"])])) := by
  by_cases h0 : k ≤ 0
  · right; left
    rw [AM.executeTask, dif_pos h0]
  · have hself : (if la = none ∨ la = some "BaseAgent" then AM.BaseAgentF env p la pr
        else AM.handleAgentContinuation env p la pr) = AM.BaseAgentF env p la pr := by
      rw [AM.handleAgentContinuation]
      exact ite_self _
    rcases BaseAgentF_cases env p la pr with ⟨hc, _⟩ | ⟨prms, hroute, hff, hfail, hres⟩
    · left
      rw [AM.executeTask, dif_neg h0]
      simp [hself, hc]
    · have he : (AM.executeTask env p la pr k).2
          = (AM.routeToAgent env "WebAgent" prms p pr (k - 1)).2 := by
        rw [AM.executeTask, dif_neg h0, hself, hres]
        simp +decide [AM.truthyStr, apply_ite]
      rw [he]
      rcases routeToAgent_trace env prms p pr (k - 1) with h | h | h
      · left; exact h
      · right; right; exact ⟨hfail, Or.inl h⟩
      · right; right; exact ⟨hfail, Or.inr h⟩

/-- C1 counterexample: with routing budget `k = 2` against a Router that
always emits `Route` to a never-failing-but-never-completing executor, the
dispatcher performs exactly one recursive continuation (at depth 1) and
never raises the depth-exceeded error — the task ends as a completed,
non-error result — whereas the claim predicts the error after exactly two
continuations. -/
theorem depth_guard_cex :
    AM.recurseDepths (AM.executeTask AM.alwaysRouteEnv (.user "task") none
        AM.emptyProgress 2).2 = [1] ∧
    AM.depthErrs (AM.executeTask AM.alwaysRouteEnv (.user "task") none
        AM.emptyProgress 2).2 = [] ∧
    (AM.executeTask AM.alwaysRouteEnv (.user "task") none AM.emptyProgress 2).1.isCompleted
        = true ∧
    (AM.executeTask AM.alwaysRouteEnv (.user "task") none AM.emptyProgress 2).1.error
        = false ∧
    (AM.executeTask AM.alwaysRouteEnv (.user "task") none AM.emptyProgress 2).1.message
        = none := by
  refine ⟨?_, ?_, ?_, ?_, ?_⟩ <;>
    simp +decide [AM.executeTask, AM.routeToAgent, AM.BaseAgentF,
      AM.handleAgentContinuation, AM.AVAILABLE_AGENTS, AM.implementedAgents,
      AM.alwaysRouteEnv, AM.truthyStr, AM.truthyResp, AM.emptyProgress, AM.neverDone,
      AM.liftExec, AM.JsResult.base, AM.promptTruthy, AM.generateDetailedResponse,
      AM.recurseDepths, AM.depthErrs]

/-- C1 (amended): `maxDepth` is decremented by one on the recursive
continuation, but the depth-exceeded error fires only when `executeTask` is
entered with `maxDepth ≤ 0` (and is then caught and returned as a
structured `AgentManager error` result, `isCompleted = true, error = true`).
Against a Router that always emits `Route` to a never-failing-but-
never-completing executor, a task with budget `k ≥ 1` performs
`min(k-1, 1)` recursive continuations — the no-repeat-failed-agent guard
stops the chain after one — and completes without the depth-exceeded
error. -/
theorem depth_guard_amended (k : Int) :
    (AM.executeTask AM.alwaysRouteEnv (.user "task") none AM.emptyProgress k).1.isCompleted
        = true ∧
    (AM.executeTask AM.alwaysRouteEnv (.user "task") none AM.emptyProgress k).1.error
        = decide (k ≤ 0) ∧
    AM.depthErrs (AM.executeTask AM.alwaysRouteEnv (.user "task") none
        AM.emptyProgress k).2 = (if k ≤ 0 then [k] else []) ∧
    AM.recurseDepths (AM.executeTask AM.alwaysRouteEnv (.user "task") none
        AM.emptyProgress k).2 = (if 2 ≤ k then [k - 1] else []) ∧
    AM.invokeRecs (AM.executeTask AM.alwaysRouteEnv (.user "task") none
        AM.emptyProgress k).2 = (if 1 ≤ k then [("WebAgent", [])] else []) := by
  by_cases h0 : k ≤ 0
  · have h2 : ¬ ((2 : Int) ≤ k) := by omega
    have h1 : ¬ ((1 : Int) ≤ k) := by omega
    rw [AM.executeTask, dif_pos h0]
    simp [AM.recurseDepths, AM.depthErrs, AM.invokeRecs, h0, h1, h2]
  · by_cases hk1 : k = 1
    · subst hk1
      refine ⟨?_, ?_, ?_, ?_, ?_⟩ <;>
        simp +decide [AM.executeTask, AM.routeToAgent, AM.BaseAgentF,
          AM.handleAgentContinuation, AM.AVAILABLE_AGENTS, AM.implementedAgents,
          AM.alwaysRouteEnv, AM.truthyStr, AM.truthyResp, AM.emptyProgress,
          AM.neverDone, AM.liftExec, AM.JsResult.base, AM.promptTruthy,
          AM.generateDetailedResponse, AM.recurseDepths, AM.depthErrs, AM.invokeRecs]
    · have h2 : (2 : Int) ≤ k := by omega
      have hk10 : ¬ (k - 1 ≤ 0) := by omega
      have hk1p : (0 : Int) < k - 1 := by omega
      have h1 : (1 : Int) ≤ k := by omega
      refine ⟨?_, ?_, ?_, ?_, ?_⟩ <;>
        simp +decide [h0, h1, h2, hk10, hk1p, AM.executeTask, AM.routeToAgent,
          AM.BaseAgentF, AM.handleAgentContinuation, AM.AVAILABLE_AGENTS,
          AM.implementedAgents, AM.alwaysRouteEnv, AM.truthyStr, AM.truthyResp,
          AM.emptyProgress, AM.neverDone, AM.liftExec, AM.JsResult.base,
          AM.promptTruthy, AM.generateDetailedResponse, AM.recurseDepths,
          AM.depthErrs, AM.invokeRecs]

/-- C2: once an executor is in `failedAgents` it is never invoked again in
the task: every recorded invocation targets an executor outside the failed
set recorded at that moment (which is the caller's set, so the set only
grows along the chain: each continuation passes the old set extended by the
just-tried executor), no executor name appears twice among the task's
invocations, and a `Route` decision naming an already-failed executor is
converted by the router into a completed direct response instead of being
honored. -/
theorem no_repeat_failed_invariant (env : AM.AmEnv) (p : AM.PromptV)
    (la : Option String) (pr : AM.Progress) (k : Int) :
    (∀ X fb, AM.AmEvent.invoke X fb ∈ (AM.executeTask env p la pr k).2 →
        X ∉ fb ∧ fb = pr.failedAgents) ∧
    (∀ X d fl, AM.AmEvent.recurse X d fl ∈ (AM.executeTask env p la pr k).2 →
        fl = pr.failedAgents ++ [X] ∧ X ∈ fl) ∧
    ((AM.invokeRecs (AM.executeTask env p la pr k).2).map Prod.fst).Nodup ∧
    (∀ p' la' pr' X prms, env.route p' la' pr' = AM.Decision.route X prms →
        X ∈ pr'.failedAgents →
        (AM.BaseAgentF env p' la' pr').isCompleted = true ∧
        (AM.BaseAgentF env p' la' pr').nextAgent = none) := by
  have hconv : ∀ p' la' pr' X prms, env.route p' la' pr' = AM.Decision.route X prms →
      X ∈ pr'.failedAgents →
      (AM.BaseAgentF env p' la' pr').isCompleted = true ∧
      (AM.BaseAgentF env p' la' pr').nextAgent = none := by
    intro p' la' pr' X prms hr hX
    rcases BaseAgentF_cases env p' la' pr' with h | ⟨prms', hr', _, hnf, _⟩
    · exact h
    · rw [hr] at hr'
      cases hr'
      exact absurd hX hnf
  rcases executeTask_trace_char env p la pr k with h | h | ⟨hfail, h | h⟩ <;>
    rw [h]
  · exact ⟨by intro X fb hm; simp at hm, by intro X d fl hm; simp at hm,
      by simp [AM.invokeRecs], hconv⟩
  · exact ⟨by intro X fb hm; simp at hm, by intro X d fl hm; simp at hm,
      by simp [AM.invokeRecs], hconv⟩
  · refine ⟨?_, ?_, by simp [AM.invokeRecs], hconv⟩
    · intro X fb hm
      simp only [List.mem_singleton] at hm
      cases hm
      exact ⟨hfail, rfl⟩
    · intro X d fl hm
      simp at hm
  · refine ⟨?_, ?_, by simp [AM.invokeRecs], hconv⟩
    · intro X fb hm
      simp only [List.mem_cons, List.not_mem_nil, or_false] at hm
      rcases hm with hm | hm
      · cases hm
        exact ⟨hfail, rfl⟩
      · cases hm
    · intro X d fl hm
      simp only [List.mem_cons, List.not_mem_nil, or_false] at hm
      rcases hm with hm | hm
      · cases hm
      · cases hm
        exact ⟨rfl, by simp⟩

/-- Witness for `no_repeat_failed_invariant` at the concrete always-routing
scenario with budget 2: the single invocation satisfies the invariant and a
route to the failed `WebAgent` is converted to a direct response. -/
theorem no_repeat_failed_invariant_witness :
    ("WebAgent" ∉ ([] : List String) ∧ ([] : List String) = AM.emptyProgress.failedAgents) ∧
    (AM.BaseAgentF AM.alwaysRouteEnv (.user "q") none AM.failedProgress).isCompleted = true ∧
    (AM.BaseAgentF AM.alwaysRouteEnv (.user "q") none AM.failedProgress).nextAgent = none := by
  have h := no_repeat_failed_invariant AM.alwaysRouteEnv (.user "task") none
    AM.emptyProgress 2
  have htr : (AM.executeTask AM.alwaysRouteEnv (.user "task") none AM.emptyProgress 2).2
      = [.invoke "WebAgent" [], .recurse "WebAgent" 1 ["WebAgent"]] := by
    simp +decide [AM.executeTask, AM.routeToAgent, AM.BaseAgentF,
      AM.handleAgentContinuation, AM.AVAILABLE_AGENTS, AM.implementedAgents,
      AM.alwaysRouteEnv, AM.truthyStr, AM.truthyResp, AM.emptyProgress, AM.neverDone,
      AM.liftExec, AM.JsResult.base, AM.promptTruthy, AM.generateDetailedResponse]
  have h1 := h.1 "WebAgent" [] (by rw [htr]; decide)
  have h2 := h.2.2.2 (.user "q") none AM.failedProgress "WebAgent" ["url", "task"]
    rfl (by decide)
  exact ⟨⟨h1.1, h1.2⟩, h2.1, h2.2⟩

/-- C3: whenever `progress.finalFormulation` is set, the Decision Router
returns a completed direct result and never a routing target; and if the
model output nonetheless attempts to route, the result is the forced direct
response built deterministically by `generateDetailedResponse` from the
prompt and the progress (which carries the raw prior executor result). -/
theorem final_formulation_direct (env : AM.AmEnv) (p : AM.PromptV)
    (la : Option String) (pr : AM.Progress) (hff : pr.finalFormulation = true) :
    (AM.BaseAgentF env p la pr).isCompleted = true ∧
    (AM.BaseAgentF env p la pr).nextAgent = none ∧
    (∀ X prms, env.route p la pr = AM.Decision.route X prms →
      AM.promptTruthy p = true →
      (AM.BaseAgentF env p la pr).response
          = some (AM.generateDetailedResponse p pr) ∧
      (AM.BaseAgentF env p la pr).forcedCompletion = true ∧
      (AM.BaseAgentF env p la pr).finalFormulationFlag = true) := by
  have hmain : (AM.BaseAgentF env p la pr).isCompleted = true ∧
      (AM.BaseAgentF env p la pr).nextAgent = none := by
    rcases BaseAgentF_cases env p la pr with h | ⟨prms, _, hnf, _, _⟩
    · exact h
    · rw [hff] at hnf
      cases hnf
  refine ⟨hmain.1, hmain.2, ?_⟩
  intro X prms hr hp
  unfold AM.BaseAgentF
  rw [hr, hp]
  simp [hff, AM.generateDetailedResponse]

/-- Witness for `final_formulation_direct` at a concrete final-formulation
progress with a routing model decision. -/
theorem final_formulation_direct_witness :
    (AM.BaseAgentF AM.alwaysRouteEnv (.user "q") (some "WebAgent") AM.ffProgress).isCompleted
        = true ∧
    (AM.BaseAgentF AM.alwaysRouteEnv (.user "q") (some "WebAgent") AM.ffProgress).response
        = some (AM.generateDetailedResponse (.user "q") AM.ffProgress) ∧
    (AM.BaseAgentF AM.alwaysRouteEnv (.user "q") (some "WebAgent") AM.ffProgress).forcedCompletion
        = true := by
  have h := final_formulation_direct AM.alwaysRouteEnv (.user "q") (some "WebAgent")
    AM.ffProgress rfl
  have h2 := h.2.2 "WebAgent" ["url", "task"] rfl (by decide)
  exact ⟨h.1, h2.1, h2.2.1⟩

/-- C10: the jobs controller invokes `executeTask` without a depth argument,
so the routing depth defaults to 5, and every externally submitted task
performs at most 5 recursive routing continuations (in fact at most one,
since the failed-agent guard stops the chain). -/
theorem default_depth_bound (env : AM.AmEnv) (p : AM.PromptV)
    (la : Option String) (pr : AM.Progress) :
    AM.executeTaskDefault env p la pr = AM.executeTask env p la pr 5 ∧
    (AM.recurseDepths (AM.executeTaskDefault env p la pr).2).length ≤ 5 := by
  refine ⟨rfl, ?_⟩
  rw [AM.executeTaskDefault]
  rcases executeTask_trace_char env p la pr 5 with h | h | ⟨_, h | h⟩ <;>
    simp [h, AM.recurseDepths]

/-- Witness for `formatter_completeness`: two products, a model reply with a
single bullet entry, so the deterministic formatter takes over. -/
theorem formatter_completeness_witness :
    4 * Fmt.witProducts.length
        ≤ 5 * Fmt.countBullet ((Fmt.ResponseFormatterAgent Fmt.witEnv Fmt.witParams).response) ∧
    (Fmt.ResponseFormatterAgent Fmt.witEnv Fmt.witParams).response
        = Fmt.createDirectFormattedResponse Fmt.witEnv Fmt.witParams.userPrompt
            (Fmt.extractPayload (Fmt.witParams.agentResult.getD
              ⟨none, none, none⟩)).1
            (Fmt.extractPayload (Fmt.witParams.agentResult.getD
              ⟨none, none, none⟩)).2 := by
  have h := formatter_completeness Fmt.witEnv Fmt.witParams
    (Fmt.witParams.agentResult.getD ⟨none, none, none⟩)
    (("Here you go:\n\n• **Phone A** - ₹9,999\n").data) Fmt.witProducts
    rfl (by decide) rfl rfl (by decide)
  exact ⟨h.1, h.2.1 (by decide)⟩

/-! ### C8, C9 — Browser Automation Agent -/

/-- The action-execution tail of a loop cycle never changes the iteration
counter (continue case). -/
lemma execNormal_iter_continue (env : WA.WebEnv) (it : Nat) (dec : WA.WDecision)
    (st s : WA.LoopState) (h : WA.execNormal env it dec st = .continueLoop s) :
    s.currentIteration = st.currentIteration := by
  simp only [WA.execNormal] at h
  split_ifs at h <;> (cases h; rfl)

/-- The action-execution tail of a loop cycle never changes the iteration
counter (exit case). -/
lemma execNormal_iter_exit (env : WA.WebEnv) (it : Nat) (dec : WA.WDecision)
    (st s : WA.LoopState) (h : WA.execNormal env it dec st = .exitLoop s) :
    s.currentIteration = st.currentIteration := by
  simp only [WA.execNormal] at h
  split_ifs at h
  cases h
  rfl

/-- The loop guard keeps `currentIteration` at most `maxIterations`, for any
fuel and any oracle behaviour: each cycle increments the counter once and the
guard admits a cycle only below the cap. -/
lemma webLoop_iteration_le (env : WA.WebEnv) (task : String) :
    ∀ fuel st, st.currentIteration ≤ WA.maxIterations →
      (WA.webLoop env task fuel st).2.currentIteration ≤ WA.maxIterations := by
  intro fuel
  induction fuel with
  | zero => intro st h; exact h
  | succ n ih =>
    intro st h
    simp only [WA.webLoop]
    split
    · rename_i hlt
      split
      · exact hlt
      · split
        · split
          · split
            · exact hlt
            · exact ih _ hlt
          · split
            · rename_i s2 heq
              refine ih s2 ?_
              rw [execNormal_iter_continue _ _ _ _ _ heq]
              exact hlt
            · rename_i s2 heq
              have hs2 := execNormal_iter_exit _ _ _ _ _ heq
              show s2.currentIteration ≤ WA.maxIterations
              rw [hs2]
              exact hlt
        · split
          · rename_i s2 heq
            refine ih s2 ?_
            rw [execNormal_iter_continue _ _ _ _ _ heq]
            exact hlt
          · rename_i s2 heq
            have hs2 := execNormal_iter_exit _ _ _ _ _ heq
            show s2.currentIteration ≤ WA.maxIterations
            rw [hs2]
            exact hlt
    · exact h

/-- C8: every WebAgent run performs at most 8 perceive/decide/act iterations.
For every oracle environment (model decisions, action outcomes, extraction
results) and every parameter record, the `totalIterations` field of the
returned object is at most 8: the main loop's hard-coded `maxIterations = 8`
guard bounds the cycle count regardless of what the model decides or how
actions fail. -/
theorem webagent_iteration_bound (env : WA.WebEnv) (ps : WA.WebParams) :
    WA.totalIterationsOf (WA.WebAgentRun env ps).1 ≤ 8 := by
  have hloop := webLoop_iteration_le env (ps.task.getD "") WA.maxIterations
    ⟨0, 0, ps.url.getD "", []⟩ (Nat.zero_le _)
  rw [WA.WebAgentRun]
  split
  · simp [WA.totalIterationsOf]
  · cases hl : env.launch with
    | error e => simp [WA.totalIterationsOf]
    | ok u =>
      cases hg : env.goto with
      | error e => simp [WA.totalIterationsOf]
      | ok v =>
        cases hr : env.robotCheck with
        | error e => simp [WA.totalIterationsOf]
        | ok b =>
          dsimp only
          rcases hw : WA.webLoop env (ps.task.getD "") WA.maxIterations ⟨0, 0, ps.url.getD "", []⟩ with ⟨ex, stf⟩
          rw [hw] at hloop
          have hstf : stf.currentIteration ≤ 8 := hloop
          cases ex with
          | completedAnswer ans => simpa [WA.totalIterationsOf] using hstf
          | completedExtract d cnt => simpa [WA.totalIterationsOf] using hstf
          | ranOut =>
            cases hf : env.finalExtract with
            | error e => simpa [WA.totalIterationsOf] using hstf
            | ok d =>
              dsimp only
              split_ifs <;> simpa [WA.totalIterationsOf] using hstf

/-- C9: a WebAgent call whose params lack `url` or lack `task` (absent or
empty, hence falsy) throws the error "Both 'url' and 'task' are required."
before any browser work: the run is a thrown exception (`Except.error`), not
the structured fatal envelope (which would be an `Except.ok` carrying
`WebResult.fatal`), and the event trace is empty, so the browser was never
launched. -/
theorem webagent_missing_params_throw (env : WA.WebEnv) (ps : WA.WebParams)
    (h : WA.truthyOS ps.url = false ∨ WA.truthyOS ps.task = false) :
    WA.WebAgentRun env ps = (.error "Both 'url' and 'task' are required.", []) := by
  have hc : (!(WA.truthyOS ps.url && WA.truthyOS ps.task)) = true := by
    rcases h with h | h <;> simp [h]
  rw [WA.WebAgentRun, if_pos hc]

/-- Witness for `webagent_missing_params_throw`: params with no `url` and a
nonempty `task`, against the trivial concrete environment. -/
theorem webagent_missing_params_throw_witness :
    (WA.truthyOS (none : Option String) = false ∨ WA.truthyOS (some "t") = false) ∧
    WA.WebAgentRun WA.wEnvDflt ⟨none, some "t"⟩ =
      (.error "Both 'url' and 'task' are required.", []) :=
  ⟨Or.inl rfl,
   webagent_missing_params_throw WA.wEnvDflt ⟨none, some "t"⟩ (Or.inl rfl)⟩

end Jarvis
